import Mathlib

/-!
# rr `kernel_metadata.cc`: siginfo translation and diagnostic name resolvers

A shallow embedding of `src/kernel_metadata.cc`.  Records are modelled at the
byte level: a C object is a little-endian byte memory, a struct member is an
offset together with an integer type, and `SI_COPY` is a typed load from the
source-shaped record followed by a typed store into the native-shaped one.
-/

namespace rr

/-! ## Byte memories -/

/-- One octet. -/
abbrev Byte := Fin 256

/-- A byte-addressed region of memory, indexed from the address of the object
it holds (`const void* data`, `&si`, `&result`). -/
abbrev Mem := Nat → Byte

/-- Little-endian byte number `j` of the bit pattern `v`. -/
def byteAt (v j : Nat) : Byte := ⟨v / 256 ^ j % 256, Nat.mod_lt _ (by decide)⟩

/-- Little-endian load of the `w` bytes at offset `off`, as a bit pattern. -/
def load : Nat → Nat → Mem → Nat
  | 0, _, _ => 0
  | w + 1, off, m => (m off).val + 256 * load w (off + 1) m

/-- Little-endian store of the low `w` bytes of the bit pattern `v` at `off`. -/
def store (w off v : Nat) (m : Mem) : Mem :=
  fun i => if off ≤ i ∧ i < off + w then byteAt v (i - off) else m i

/-- C `memcpy(dst, src, n)`: the first `n` bytes of `dst` become those of `src`. -/
def memcpy (dst src : Mem) (n : Nat) : Mem :=
  fun i => if i < n then src i else dst i

/-- C `memset(m + off, c, n)`. -/
def memset (m : Mem) (off : Nat) (c : Byte) (n : Nat) : Mem :=
  fun i => if off ≤ i ∧ i < off + n then c else m i

/-- The object representation of an `n`-byte object stored at the start of `m`
(what returning the object by value hands to the caller). -/
def snapshot (m : Mem) (n : Nat) : List Byte := (List.range n).map m

/-- Read a byte list back as a memory (bytes past the end read as zero). -/
def ofBytes (l : List Byte) : Mem := fun i => l.getD i 0

/-! ## Integer types -/

/-- A C integer type: its size in bytes and its signedness. -/
structure IntTy where
  bytes : Nat
  signed : Bool
  deriving DecidableEq, Repr

/-- Number of bit patterns of a type. -/
def IntTy.card (t : IntTy) : Nat := 256 ^ t.bytes

/-- Value denoted by a bit pattern (two's complement for signed types). -/
def IntTy.decode (t : IntTy) (u : Nat) : Int :=
  if t.signed ∧ t.card ≤ 2 * (u % t.card) then (u % t.card : Nat) - (t.card : Int)
  else (u % t.card : Nat)

/-- Bit pattern of a value after conversion to the type (reduction modulo
`2^(8*bytes)`). -/
def IntTy.encode (t : IntTy) (v : Int) : Nat := (v % (t.card : Int)).toNat

/-- C++ integral conversion of `v` to the type `t`: the unique value of `t`
congruent to `v` modulo `2^(8*bytes)`. -/
def IntTy.conv (t : IntTy) (v : Int) : Int := t.decode (t.encode v)

/-- The values representable in the type. -/
def IntTy.InRange (t : IntTy) (v : Int) : Prop :=
  if t.signed then -(t.card : Int) ≤ 2 * v ∧ 2 * v < t.card
  else 0 ≤ v ∧ v < t.card

instance (t : IntTy) (v : Int) : Decidable (t.InRange v) := by
  unfold IntTy.InRange; split <;> infer_instance

/-! ## Architectures and the architecture profile of `siginfo_t` -/

/-- The architecture tags dispatched on by `RR_ARCH_FUNCTION`. -/
inductive SupportedArch
  | x86
  | x86_64
  | aarch64
  deriving DecidableEq, Repr

/-- Modelled from the spec: the architecture profile (`kernel_abi.h`, which
declares `Arch::siginfo_t`, is not among the sources).  Size in bytes of a
machine word (`unsigned_word`, `signed_long`, `ptr<T>::val`) per the Linux ABI
of each architecture. -/
def wordBytes : SupportedArch → Nat
  | .x86 => 4
  | .x86_64 => 8
  | .aarch64 => 8

/-- Modelled from the spec: `SIGINFO_MAX_SIZE` of the architecture profile,
the size in bytes of `siginfo_t` on every Linux architecture. -/
def SIGINFO_MAX_SIZE : Nat := 128

/-- Modelled from the spec: `sizeof(typename Arch::siginfo_t)` of the
architecture profile. -/
def sizeof_siginfo_t (_a : SupportedArch) : Nat := SIGINFO_MAX_SIZE

/-- Modelled from the spec: number of `signed_int` elements in the
`_sifields.padding` member of the architecture profile (three header ints on a
32-bit profile, and one more int of alignment on a 64-bit one). -/
def SIGINFO_PAD_SIZE (a : SupportedArch) : Nat :=
  SIGINFO_MAX_SIZE / 4 - (if wordBytes a = 4 then 3 else 4)

/-- The least multiple of the alignment `a` that is at least `n`. -/
def alignUp (n a : Nat) : Nat := (n + a - 1) / a * a

/-- Modelled from the spec: offset of the `_sifields` union in the
architecture profile: the three header ints, rounded up to the alignment of a
machine word. -/
def sifields_offset (a : SupportedArch) : Nat := alignUp 12 (wordBytes a)

/-- Size in bytes of `_sifields.padding`, which spans the whole union. -/
def sizeof_padding (a : SupportedArch) : Nat := 4 * SIGINFO_PAD_SIZE a

/-- The scalar members of `siginfo_t` that `convert_to_native_siginfo_arch`
names: the three header members and the members reached through `_sifields`. -/
inductive Field
  | si_signo
  | si_errno
  | si_code
  | kill_si_pid
  | kill_si_uid
  | rt_si_pid
  | rt_si_uid
  | rt_si_sigval_ptr
  | timer_si_tid
  | timer_si_overrun
  | timer_si_sigval_ptr
  | sigchld_si_pid
  | sigchld_si_uid
  | sigchld_si_status
  | sigchld_si_utime
  | sigchld_si_stime
  | sigfault_si_addr
  | sigfault_si_addr_lsb
  | sigfault_lower
  | sigfault_upper
  | sigpoll_si_band
  | sigpoll_si_fd
  | sigsys_call_addr
  | sigsys_syscall
  | sigsys_arch
  deriving DecidableEq, Repr

/-- C `int`. -/
def signed_int : IntTy := ⟨4, true⟩

/-- C `unsigned int`. -/
def unsigned_int : IntTy := ⟨4, false⟩

/-- C `short`. -/
def signed_short : IntTy := ⟨2, true⟩

/-- Word-sized signed integer of an architecture (`signed_long`,
`sigchld_clock_t`). -/
def signed_long (a : SupportedArch) : IntTy := ⟨wordBytes a, true⟩

/-- Word-sized unsigned integer of an architecture (the `val` member of
`ptr<T>`). -/
def unsigned_word (a : SupportedArch) : IntTy := ⟨wordBytes a, false⟩

/-- Modelled from the spec: integer type of each member in the architecture
profile (`pid_t` is `int`, `uid_t` is `unsigned int`, pointers are unsigned
words, `si_band_` is a `signed_long`, the child clocks are word-sized signed
integers). -/
def Field.ty (a : SupportedArch) : Field → IntTy
  | .si_signo => signed_int
  | .si_errno => signed_int
  | .si_code => signed_int
  | .kill_si_pid => signed_int
  | .kill_si_uid => unsigned_int
  | .rt_si_pid => signed_int
  | .rt_si_uid => unsigned_int
  | .rt_si_sigval_ptr => unsigned_word a
  | .timer_si_tid => signed_int
  | .timer_si_overrun => signed_int
  | .timer_si_sigval_ptr => unsigned_word a
  | .sigchld_si_pid => signed_int
  | .sigchld_si_uid => unsigned_int
  | .sigchld_si_status => signed_int
  | .sigchld_si_utime => signed_long a
  | .sigchld_si_stime => signed_long a
  | .sigfault_si_addr => unsigned_word a
  | .sigfault_si_addr_lsb => signed_short
  | .sigfault_lower => unsigned_word a
  | .sigfault_upper => unsigned_word a
  | .sigpoll_si_band => signed_long a
  | .sigpoll_si_fd => signed_int
  | .sigsys_call_addr => unsigned_word a
  | .sigsys_syscall => signed_int
  | .sigsys_arch => unsigned_int

/-- Modelled from the spec: byte offset of each member in the architecture
profile, by the C layout rules (each member at the next multiple of its
alignment; every union member starts at the union). -/
def Field.off (a : SupportedArch) : Field → Nat
  | .si_signo => 0
  | .si_errno => 4
  | .si_code => 8
  | .kill_si_pid => sifields_offset a
  | .kill_si_uid => sifields_offset a + 4
  | .rt_si_pid => sifields_offset a
  | .rt_si_uid => sifields_offset a + 4
  | .rt_si_sigval_ptr => sifields_offset a + 8
  | .timer_si_tid => sifields_offset a
  | .timer_si_overrun => sifields_offset a + 4
  | .timer_si_sigval_ptr => sifields_offset a + 8
  | .sigchld_si_pid => sifields_offset a
  | .sigchld_si_uid => sifields_offset a + 4
  | .sigchld_si_status => sifields_offset a + 8
  | .sigchld_si_utime => sifields_offset a + alignUp 12 (wordBytes a)
  | .sigchld_si_stime => sifields_offset a + alignUp 12 (wordBytes a) + wordBytes a
  | .sigfault_si_addr => sifields_offset a
  | .sigfault_si_addr_lsb => sifields_offset a + wordBytes a
  | .sigfault_lower => sifields_offset a + alignUp (wordBytes a + 2) (wordBytes a)
  | .sigfault_upper => sifields_offset a + alignUp (wordBytes a + 2) (wordBytes a) + wordBytes a
  | .sigpoll_si_band => sifields_offset a
  | .sigpoll_si_fd => sifields_offset a + wordBytes a
  | .sigsys_call_addr => sifields_offset a
  | .sigsys_syscall => sifields_offset a + wordBytes a
  | .sigsys_arch => sifields_offset a + wordBytes a + 4

/-- The bytes occupied by a member: `i` lies inside member `f` of the
`a`-shaped record. -/
def Field.covers (a : SupportedArch) (f : Field) (i : Nat) : Prop :=
  f.off a ≤ i ∧ i < f.off a + (f.ty a).bytes

instance (a : SupportedArch) (f : Field) (i : Nat) : Decidable (f.covers a i) := by
  unfold Field.covers; infer_instance

/-- Two members of the `a`-shaped record that share no byte. -/
def Field.disjoint (a : SupportedArch) (f g : Field) : Prop :=
  f.off a + (f.ty a).bytes ≤ g.off a ∨ g.off a + (g.ty a).bytes ≤ f.off a

instance (a : SupportedArch) (f g : Field) : Decidable (f.disjoint a g) := by
  unfold Field.disjoint; infer_instance

/-- Typed load of member `f` from an `a`-shaped record (`si.f` as an rvalue). -/
def readField (a : SupportedArch) (f : Field) (m : Mem) : Int :=
  (f.ty a).decode (load (f.ty a).bytes (f.off a) m)

/-- Typed store into member `f` of an `a`-shaped record (`result.f = v`): the
value is converted to the member type and its bytes are written. -/
def writeField (a : SupportedArch) (f : Field) (v : Int) (m : Mem) : Mem :=
  store (f.ty a).bytes (f.off a) ((f.ty a).encode v) m

/-! ## Signal numbers and `si_code` values (`<signal.h>`, Linux) -/

def SIGILL : Int := 4
def SIGTRAP : Int := 5
def SIGBUS : Int := 7
def SIGFPE : Int := 8
def SIGSEGV : Int := 11
def SIGCHLD : Int := 17
def SIGPOLL : Int := 29
def SIGSYS : Int := 31

def SI_USER : Int := 0
def SI_KERNEL : Int := 128
def SI_QUEUE : Int := -1
def SI_TIMER : Int := -2
def SI_MESGQ : Int := -3
def SI_ASYNCIO : Int := -4
def SI_SIGIO : Int := -5
def SI_TKILL : Int := -6
def SI_ASYNCNL : Int := -60

/-! ## `convert_to_native_siginfo` -/

/-- The locals of `convert_to_native_siginfo_arch` as they are on entry: both
are declared without an initialiser, so their bytes are whatever the stack
holds. -/
structure Frame where
  si : Mem
  result : Mem

/-- The macro `SI_COPY(f)`: `result._sifields.f = si._sifields.f`, a load of
the member from the `arch`-shaped `si` and a store into the `native`-shaped
`result`. -/
def SI_COPY (native arch : SupportedArch) (f : Field) (si result : Mem) : Mem :=
  writeField native f (readField arch f si) result

/-- The function template `convert_to_native_siginfo_arch<Arch>`, with the
build's `NativeArch` as the parameter `native`.  `FATAL()` does not return; it
is the `error` result. -/
def convert_to_native_siginfo_arch (native arch : SupportedArch) (data : Mem) (size : Nat)
    (fr : Frame) : Except String (List Byte) :=
  if size ≠ sizeof_siginfo_t arch then
    .error "Siginfo has wrong size"
  else if arch = native then
    .ok (snapshot (memcpy fr.result data (sizeof_siginfo_t native)) (sizeof_siginfo_t native))
  else
    let si := memcpy fr.si data (sizeof_siginfo_t arch)
    let result := writeField native .si_signo (readField arch .si_signo si) fr.result
    let result := writeField native .si_errno (readField arch .si_errno si) result
    let result := writeField native .si_code (readField arch .si_code si) result
    let result := memset result (sifields_offset native) 0 (sizeof_padding native)
    let si_code := readField native .si_code result
    let si_signo := readField native .si_signo result
    let result :=
      if si_code ≤ 0 then
        if si_code = SI_USER then
          SI_COPY native arch .kill_si_uid si (SI_COPY native arch .kill_si_pid si result)
        else if si_code = SI_QUEUE ∨ si_code = SI_MESGQ then
          SI_COPY native arch .rt_si_sigval_ptr si
            (SI_COPY native arch .rt_si_uid si (SI_COPY native arch .rt_si_pid si result))
        else if si_code = SI_TIMER then
          SI_COPY native arch .timer_si_sigval_ptr si
            (SI_COPY native arch .timer_si_overrun si (SI_COPY native arch .timer_si_tid si result))
        else result
      else
        if si_signo = SIGCHLD then
          SI_COPY native arch .sigchld_si_utime si
            (SI_COPY native arch .sigchld_si_stime si
              (SI_COPY native arch .sigchld_si_status si
                (SI_COPY native arch .sigchld_si_uid si
                  (SI_COPY native arch .sigchld_si_pid si result))))
        else if si_signo = SIGILL ∨ si_signo = SIGFPE ∨ si_signo = SIGSEGV ∨ si_signo = SIGBUS
            ∨ si_signo = SIGTRAP then
          SI_COPY native arch .sigfault_upper si
            (SI_COPY native arch .sigfault_lower si
              (SI_COPY native arch .sigfault_si_addr_lsb si
                (SI_COPY native arch .sigfault_si_addr si result)))
        else if si_signo = SIGPOLL then
          SI_COPY native arch .sigpoll_si_fd si (SI_COPY native arch .sigpoll_si_band si result)
        else if si_signo = SIGSYS then
          SI_COPY native arch .sigsys_arch si
            (SI_COPY native arch .sigsys_syscall si (SI_COPY native arch .sigsys_call_addr si result))
        else result
    .ok (snapshot result (sizeof_siginfo_t native))

/-- The dispatcher `convert_to_native_siginfo`: `RR_ARCH_FUNCTION` selects the
template instance for the tag. -/
def convert_to_native_siginfo (native : SupportedArch) (arch : SupportedArch) (data : Mem)
    (size : Nat) (fr : Frame) : Except String (List Byte) :=
  match arch with
  | .x86 => convert_to_native_siginfo_arch native .x86 data size fr
  | .x86_64 => convert_to_native_siginfo_arch native .x86_64 data size fr
  | .aarch64 => convert_to_native_siginfo_arch native .aarch64 data size fr

/-! ### The category table of the specification -/

/-- The payload members the specification assigns to a header, in the words
of its category table: `code` `SI_USER` is the kill category, `SI_QUEUE` and
`SI_MESGQ` the rt category, `SI_TIMER` the timer category; a positive `code`
selects by signal number the child, fault, poll or sigsys category; every
other header has no category. -/
def payloadFields (code signo : Int) : List Field :=
  if code = SI_USER then [.kill_si_pid, .kill_si_uid]
  else if code = SI_QUEUE ∨ code = SI_MESGQ then [.rt_si_pid, .rt_si_uid, .rt_si_sigval_ptr]
  else if code = SI_TIMER then [.timer_si_tid, .timer_si_overrun, .timer_si_sigval_ptr]
  else if 0 < code ∧ signo = SIGCHLD then
    [.sigchld_si_pid, .sigchld_si_uid, .sigchld_si_status, .sigchld_si_stime, .sigchld_si_utime]
  else if 0 < code ∧ (signo = SIGILL ∨ signo = SIGFPE ∨ signo = SIGSEGV ∨ signo = SIGBUS
      ∨ signo = SIGTRAP) then
    [.sigfault_si_addr, .sigfault_si_addr_lsb, .sigfault_lower, .sigfault_upper]
  else if 0 < code ∧ signo = SIGPOLL then [.sigpoll_si_band, .sigpoll_si_fd]
  else if 0 < code ∧ signo = SIGSYS then [.sigsys_call_addr, .sigsys_syscall, .sigsys_arch]
  else []

/-- The pointer-valued payload members (`ptr<T>::val`). -/
def pointerFields : List Field :=
  [.rt_si_sigval_ptr, .timer_si_sigval_ptr, .sigfault_si_addr, .sigfault_lower,
    .sigfault_upper, .sigsys_call_addr]

/-- `SI_COPY` applied to a list of members, first to last. -/
def copyFields (native arch : SupportedArch) (si : Mem) (l : List Field) (result : Mem) : Mem :=
  l.foldl (fun r f => SI_COPY native arch f si r) result

/-- The native record with the header of `si` and an all-zero payload: the
state of `result` after the three header assignments and the `memset`. -/
def headerOnly (native arch : SupportedArch) (si result : Mem) : Mem :=
  memset
    (writeField native .si_code (readField arch .si_code si)
      (writeField native .si_errno (readField arch .si_errno si)
        (writeField native .si_signo (readField arch .si_signo si) result)))
    (sifields_offset native) 0 (sizeof_padding native)

/-! ## Diagnostic name resolvers -/

/-- The output of `snprintf(buf, size, ...)` read back as a C string: the
formatted text cut to the `size - 1` characters that fit before the NUL. -/
def snprintf (size : Nat) (formatted : String) : String := ⟨formatted.data.take (size - 1)⟩

/-- The conversion `%d` of an `int`: signed decimal. -/
def fmt_d (n : Int) : String := toString n

/-- `sizeof(buf)` for the `char buf[100]` every resolver formats into. -/
def sizeof_buf : Nat := 100

/-- A `switch` over `CASE` labels: the name of the first label equal to the
scrutinee, if there is one. -/
def switchCase (cases : List (Int × String)) (v : Int) : Option String :=
  (cases.find? (fun c => c.1 = v)).map (fun c => c.2)

/-- Modelled from the spec: numeric value of each `SupportedArch` enumerator
(the `enum` is declared in `kernel_abi.h`, which is not among the sources), in
declaration order. -/
def SupportedArch.toInt : SupportedArch → Int
  | .x86 => 0
  | .x86_64 => 1
  | .aarch64 => 2

/-- The function `arch_name`; the argument is the numeric value of the
`SupportedArch` passed, so that the `default:` label is reachable. -/
def arch_name (arch : Int) : String :=
  if arch = SupportedArch.x86_64.toInt then "x86_64"
  else if arch = SupportedArch.x86.toInt then "x86"
  else if arch = SupportedArch.aarch64.toInt then "aarch64"
  else snprintf sizeof_buf ("Unknown architecture " ++ fmt_d arch)

/-- The `CASE` labels of the `switch` in `ptrace_event_name`, in source order, with the Linux
values of the events (`PTRACE_EVENT_SECCOMP_OBSOLETE` is 8 and `PTRACE_EVENT_STOP` is 128). -/
def ptraceEventCases : List (Int × String) :=
  [(1, "PTRACE_EVENT_FORK"), (2, "PTRACE_EVENT_VFORK"), (3, "PTRACE_EVENT_CLONE"),
    (4, "PTRACE_EVENT_EXEC"), (5, "PTRACE_EVENT_VFORK_DONE"), (6, "PTRACE_EVENT_EXIT"),
    (8, "PTRACE_EVENT_SECCOMP_OBSOLETE"), (7, "PTRACE_EVENT_SECCOMP"), (128, "PTRACE_EVENT_STOP")]

/-- The function `ptrace_event_name`. -/
def ptrace_event_name (event : Int) : String :=
  match switchCase ptraceEventCases event with
  | some name => name
  | none =>
    if event = 0 then "PTRACE_EVENT(0)"
    else snprintf sizeof_buf ("PTRACE_EVENT(" ++ fmt_d event ++ ")")

/-- The request names listed by `PTRACE_ARCH_CASE` in `ptrace_req_name`, in source order. -/
inductive PtraceReq
  | PTRACE_TRACEME
  | PTRACE_PEEKTEXT
  | PTRACE_PEEKDATA
  | PTRACE_PEEKUSR
  | PTRACE_POKETEXT
  | PTRACE_POKEDATA
  | PTRACE_POKEUSR
  | PTRACE_CONT
  | PTRACE_KILL
  | PTRACE_SINGLESTEP
  | PTRACE_GETREGS
  | PTRACE_SETREGS
  | PTRACE_GETFPREGS
  | PTRACE_SETFPREGS
  | PTRACE_GETFPXREGS
  | PTRACE_SETFPXREGS
  | PTRACE_ATTACH
  | PTRACE_DETACH
  | PTRACE_SYSCALL
  | PTRACE_SETOPTIONS
  | PTRACE_GETEVENTMSG
  | PTRACE_GETSIGINFO
  | PTRACE_SETSIGINFO
  | PTRACE_GETREGSET
  | PTRACE_SETREGSET
  | PTRACE_SEIZE
  | PTRACE_INTERRUPT
  | PTRACE_LISTEN
  | PTRACE_GETSIGMASK
  | PTRACE_SETSIGMASK
  | PTRACE_GET_SYSCALL_INFO
  | PTRACE_SYSEMU
  | PTRACE_SYSEMU_SINGLESTEP
  deriving DecidableEq, Repr

/-- Every `PTRACE_ARCH_CASE` label, in source order. -/
def PtraceReq.all : List PtraceReq :=
  [.PTRACE_TRACEME,
    .PTRACE_PEEKTEXT,
    .PTRACE_PEEKDATA,
    .PTRACE_PEEKUSR,
    .PTRACE_POKETEXT,
    .PTRACE_POKEDATA,
    .PTRACE_POKEUSR,
    .PTRACE_CONT,
    .PTRACE_KILL,
    .PTRACE_SINGLESTEP,
    .PTRACE_GETREGS,
    .PTRACE_SETREGS,
    .PTRACE_GETFPREGS,
    .PTRACE_SETFPREGS,
    .PTRACE_GETFPXREGS,
    .PTRACE_SETFPXREGS,
    .PTRACE_ATTACH,
    .PTRACE_DETACH,
    .PTRACE_SYSCALL,
    .PTRACE_SETOPTIONS,
    .PTRACE_GETEVENTMSG,
    .PTRACE_GETSIGINFO,
    .PTRACE_SETSIGINFO,
    .PTRACE_GETREGSET,
    .PTRACE_SETREGSET,
    .PTRACE_SEIZE,
    .PTRACE_INTERRUPT,
    .PTRACE_LISTEN,
    .PTRACE_GETSIGMASK,
    .PTRACE_SETSIGMASK,
    .PTRACE_GET_SYSCALL_INFO,
    .PTRACE_SYSEMU,
    .PTRACE_SYSEMU_SINGLESTEP]

/-- The stringification `#_id` of a `PTRACE_ARCH_CASE` label. -/
def PtraceReq.name : PtraceReq → String
  | .PTRACE_TRACEME => "PTRACE_TRACEME"
  | .PTRACE_PEEKTEXT => "PTRACE_PEEKTEXT"
  | .PTRACE_PEEKDATA => "PTRACE_PEEKDATA"
  | .PTRACE_PEEKUSR => "PTRACE_PEEKUSR"
  | .PTRACE_POKETEXT => "PTRACE_POKETEXT"
  | .PTRACE_POKEDATA => "PTRACE_POKEDATA"
  | .PTRACE_POKEUSR => "PTRACE_POKEUSR"
  | .PTRACE_CONT => "PTRACE_CONT"
  | .PTRACE_KILL => "PTRACE_KILL"
  | .PTRACE_SINGLESTEP => "PTRACE_SINGLESTEP"
  | .PTRACE_GETREGS => "PTRACE_GETREGS"
  | .PTRACE_SETREGS => "PTRACE_SETREGS"
  | .PTRACE_GETFPREGS => "PTRACE_GETFPREGS"
  | .PTRACE_SETFPREGS => "PTRACE_SETFPREGS"
  | .PTRACE_GETFPXREGS => "PTRACE_GETFPXREGS"
  | .PTRACE_SETFPXREGS => "PTRACE_SETFPXREGS"
  | .PTRACE_ATTACH => "PTRACE_ATTACH"
  | .PTRACE_DETACH => "PTRACE_DETACH"
  | .PTRACE_SYSCALL => "PTRACE_SYSCALL"
  | .PTRACE_SETOPTIONS => "PTRACE_SETOPTIONS"
  | .PTRACE_GETEVENTMSG => "PTRACE_GETEVENTMSG"
  | .PTRACE_GETSIGINFO => "PTRACE_GETSIGINFO"
  | .PTRACE_SETSIGINFO => "PTRACE_SETSIGINFO"
  | .PTRACE_GETREGSET => "PTRACE_GETREGSET"
  | .PTRACE_SETREGSET => "PTRACE_SETREGSET"
  | .PTRACE_SEIZE => "PTRACE_SEIZE"
  | .PTRACE_INTERRUPT => "PTRACE_INTERRUPT"
  | .PTRACE_LISTEN => "PTRACE_LISTEN"
  | .PTRACE_GETSIGMASK => "PTRACE_GETSIGMASK"
  | .PTRACE_SETSIGMASK => "PTRACE_SETSIGMASK"
  | .PTRACE_GET_SYSCALL_INFO => "PTRACE_GET_SYSCALL_INFO"
  | .PTRACE_SYSEMU => "PTRACE_SYSEMU"
  | .PTRACE_SYSEMU_SINGLESTEP => "PTRACE_SYSEMU_SINGLESTEP"

/-- The constant `INT32_MAX`. -/
def INT32_MAX : Int := 2147483647

/-- The function template `ptrace_req_name<Arch>`.  The values `Arch::_id` of
the request constants are declared in `kernel_abi.h`, which is not among the
sources; they are the parameter `Arch`. -/
def ptrace_req_name (Arch : PtraceReq → Int) (request : Int) : String :=
  match PtraceReq.all.find? (fun r => Arch r = (if request ≥ 0 then request else INT32_MAX)) with
  | some r => r.name
  | none => snprintf sizeof_buf ("PTRACE_REQUEST(" ++ fmt_d request ++ ")")

/-- The `CASE` labels of the `switch` in `signal_name`, in source order, each with the value of
the signal in the Linux `<signal.h>` and its stringified name. -/
def signalCases : List (Int × String) :=
  [(1, "SIGHUP"), (2, "SIGINT"), (3, "SIGQUIT"), (4, "SIGILL"), (5, "SIGTRAP"), (6, "SIGABRT"),
    (7, "SIGBUS"), (8, "SIGFPE"), (9, "SIGKILL"), (10, "SIGUSR1"), (11, "SIGSEGV"),
    (12, "SIGUSR2"), (13, "SIGPIPE"), (14, "SIGALRM"), (15, "SIGTERM"), (16, "SIGSTKFLT"),
    (17, "SIGCHLD"), (18, "SIGCONT"), (19, "SIGSTOP"), (20, "SIGTSTP"), (21, "SIGTTIN"),
    (22, "SIGTTOU"), (23, "SIGURG"), (24, "SIGXCPU"), (25, "SIGXFSZ"), (26, "SIGVTALRM"),
    (27, "SIGPROF"), (28, "SIGWINCH"), (29, "SIGIO"), (30, "SIGPWR"), (31, "SIGSYS")]

/-- The function `signal_name`. -/
def signal_name (sig : Int) : String :=
  if 32 ≤ sig ∧ sig ≤ 64 then snprintf (sizeof_buf - 1) ("SIGRT" ++ fmt_d sig)
  else
    match switchCase signalCases sig with
    | some name => name
    | none =>
      if sig = 0 then "signal(0)"
      else snprintf sizeof_buf ("signal(" ++ fmt_d sig ++ ")")

/-- The `CASE` labels of the `switch` in `errno_name_cstr`, in source order, each with the value
of the constant in the Linux `<errno.h>` and its stringified name. -/
def errnoCases : List (Int × String) :=
  [(1, "EPERM"), (2, "ENOENT"), (3, "ESRCH"), (4, "EINTR"), (5, "EIO"), (6, "ENXIO"),
    (7, "E2BIG"), (8, "ENOEXEC"), (9, "EBADF"), (10, "ECHILD"), (11, "EAGAIN"), (12, "ENOMEM"),
    (13, "EACCES"), (14, "EFAULT"), (15, "ENOTBLK"), (16, "EBUSY"), (17, "EEXIST"),
    (18, "EXDEV"), (19, "ENODEV"), (20, "ENOTDIR"), (21, "EISDIR"), (22, "EINVAL"),
    (23, "ENFILE"), (24, "EMFILE"), (25, "ENOTTY"), (26, "ETXTBSY"), (27, "EFBIG"),
    (28, "ENOSPC"), (29, "ESPIPE"), (30, "EROFS"), (31, "EMLINK"), (32, "EPIPE"), (33, "EDOM"),
    (34, "ERANGE"), (35, "EDEADLK"), (36, "ENAMETOOLONG"), (37, "ENOLCK"), (38, "ENOSYS"),
    (39, "ENOTEMPTY"), (40, "ELOOP"), (42, "ENOMSG"), (43, "EIDRM"), (44, "ECHRNG"),
    (45, "EL2NSYNC"), (46, "EL3HLT"), (47, "EL3RST"), (48, "ELNRNG"), (49, "EUNATCH"),
    (50, "ENOCSI"), (51, "EL2HLT"), (52, "EBADE"), (53, "EBADR"), (54, "EXFULL"), (55, "ENOANO"),
    (56, "EBADRQC"), (57, "EBADSLT"), (59, "EBFONT"), (60, "ENOSTR"), (61, "ENODATA"),
    (62, "ETIME"), (63, "ENOSR"), (64, "ENONET"), (65, "ENOPKG"), (66, "EREMOTE"),
    (67, "ENOLINK"), (68, "EADV"), (69, "ESRMNT"), (70, "ECOMM"), (71, "EPROTO"),
    (72, "EMULTIHOP"), (73, "EDOTDOT"), (74, "EBADMSG"), (75, "EOVERFLOW"), (76, "ENOTUNIQ"),
    (77, "EBADFD"), (78, "EREMCHG"), (79, "ELIBACC"), (80, "ELIBBAD"), (81, "ELIBSCN"),
    (82, "ELIBMAX"), (83, "ELIBEXEC"), (84, "EILSEQ"), (85, "ERESTART"), (86, "ESTRPIPE"),
    (87, "EUSERS"), (88, "ENOTSOCK"), (89, "EDESTADDRREQ"), (90, "EMSGSIZE"), (91, "EPROTOTYPE"),
    (92, "ENOPROTOOPT"), (93, "EPROTONOSUPPORT"), (94, "ESOCKTNOSUPPORT"), (95, "EOPNOTSUPP"),
    (96, "EPFNOSUPPORT"), (97, "EAFNOSUPPORT"), (98, "EADDRINUSE"), (99, "EADDRNOTAVAIL"),
    (100, "ENETDOWN"), (101, "ENETUNREACH"), (102, "ENETRESET"), (103, "ECONNABORTED"),
    (104, "ECONNRESET"), (105, "ENOBUFS"), (106, "EISCONN"), (107, "ENOTCONN"),
    (108, "ESHUTDOWN"), (109, "ETOOMANYREFS"), (110, "ETIMEDOUT"), (111, "ECONNREFUSED"),
    (112, "EHOSTDOWN"), (113, "EHOSTUNREACH"), (114, "EALREADY"), (115, "EINPROGRESS"),
    (116, "ESTALE"), (117, "EUCLEAN"), (118, "ENOTNAM"), (119, "ENAVAIL"), (120, "EISNAM"),
    (121, "EREMOTEIO"), (122, "EDQUOT"), (123, "ENOMEDIUM"), (124, "EMEDIUMTYPE"),
    (125, "ECANCELED"), (126, "ENOKEY"), (127, "EKEYEXPIRED"), (128, "EKEYREVOKED"),
    (129, "EKEYREJECTED"), (130, "EOWNERDEAD"), (131, "ENOTRECOVERABLE"), (132, "ERFKILL"),
    (133, "EHWPOISON")]

/-- The function `errno_name_cstr`; `none` is the `NULL` of the `default:`
label. -/
def errno_name_cstr (err : Int) : Option String :=
  if err = 0 then some "SUCCESS" else switchCase errnoCases err

/-- The function `errno_name`. -/
def errno_name (err : Int) : String :=
  match errno_name_cstr err with
  | none => snprintf sizeof_buf ("errno(" ++ fmt_d err ++ ")")
  | some name => name

/-- The `CASE` labels of the first `switch` in `sicode_name`: the codes that mean the same under
every signal. -/
def genericCodeCases : List (Int × String) :=
  [(0, "SI_USER"), (128, "SI_KERNEL"), (-1, "SI_QUEUE"), (-2, "SI_TIMER"), (-3, "SI_MESGQ"),
    (-4, "SI_ASYNCIO"), (-5, "SI_SIGIO"), (-6, "SI_TKILL"), (-60, "SI_ASYNCNL")]

/-- The `CASE` labels of the inner `switch` of `sicode_name` under `case SIGSEGV`. -/
def segvCodes : List (Int × String) :=
  [(1, "SEGV_MAPERR"), (2, "SEGV_ACCERR")]

/-- The `CASE` labels of the inner `switch` of `sicode_name` under `case SIGTRAP`. -/
def trapCodes : List (Int × String) :=
  [(1, "TRAP_BRKPT"), (2, "TRAP_TRACE"), (4, "TRAP_HWBKPT")]

/-- The `CASE` labels of the inner `switch` of `sicode_name` under `case SIGILL`. -/
def illCodes : List (Int × String) :=
  [(1, "ILL_ILLOPC"), (2, "ILL_ILLOPN"), (3, "ILL_ILLADR"), (4, "ILL_ILLTRP"), (5, "ILL_PRVOPC"),
    (6, "ILL_PRVREG"), (7, "ILL_COPROC"), (8, "ILL_BADSTK")]

/-- The `CASE` labels of the inner `switch` of `sicode_name` under `case SIGFPE`. -/
def fpeCodes : List (Int × String) :=
  [(1, "FPE_INTDIV"), (2, "FPE_INTOVF"), (3, "FPE_FLTDIV"), (4, "FPE_FLTOVF"), (5, "FPE_FLTUND"),
    (6, "FPE_FLTRES"), (7, "FPE_FLTINV"), (8, "FPE_FLTSUB")]

/-- The `CASE` labels of the inner `switch` of `sicode_name` under `case SIGBUS`. -/
def busCodes : List (Int × String) :=
  [(1, "BUS_ADRALN"), (2, "BUS_ADRERR"), (3, "BUS_OBJERR"), (4, "BUS_MCEERR_AR"),
    (5, "BUS_MCEERR_AO")]

/-- The `CASE` labels of the inner `switch` of `sicode_name` under `case SIGCHLD`. -/
def cldCodes : List (Int × String) :=
  [(1, "CLD_EXITED"), (2, "CLD_KILLED"), (3, "CLD_DUMPED"), (4, "CLD_TRAPPED"),
    (5, "CLD_STOPPED"), (6, "CLD_CONTINUED")]

/-- The `CASE` labels of the inner `switch` of `sicode_name` under `case SIGPOLL`. -/
def pollCodes : List (Int × String) :=
  [(1, "POLL_IN"), (2, "POLL_OUT"), (3, "POLL_MSG"), (4, "POLL_ERR"), (5, "POLL_PRI"),
    (6, "POLL_HUP")]

/-- The second `switch` of `sicode_name`: the inner `switch` of the signal, or
nothing for a signal without one. -/
def signalCodeCases (sig : Int) : List (Int × String) :=
  if sig = SIGSEGV then segvCodes
  else if sig = SIGTRAP then trapCodes
  else if sig = SIGILL then illCodes
  else if sig = SIGFPE then fpeCodes
  else if sig = SIGBUS then busCodes
  else if sig = SIGCHLD then cldCodes
  else if sig = SIGPOLL then pollCodes
  else []

/-- The function `sicode_name`. -/
def sicode_name (code sig : Int) : String :=
  match switchCase genericCodeCases code with
  | some name => name
  | none =>
    match switchCase (signalCodeCases sig) code with
    | some name => name
    | none => snprintf sizeof_buf ("sicode(" ++ fmt_d code ++ ")")

/-! ## The C type `int` and its bitwise operators -/

/-- The constant `INT_MIN`. -/
def INT_MIN : Int := -2147483648

/-- The constant `INT_MAX`. -/
def INT_MAX : Int := 2147483647

/-- The values of the C type `int`, the argument type of the resolvers. -/
def IsInt (n : Int) : Prop := INT_MIN ≤ n ∧ n ≤ INT_MAX

instance (n : Int) : Decidable (IsInt n) := by
  unfold IsInt; infer_instance

/-- The two's-complement bit pattern of an `int`. -/
def bits (n : Int) : Nat := signed_int.encode n

/-- C `a & b` on `int`. -/
def int_and (a b : Int) : Int := signed_int.decode (bits a &&& bits b)

/-- C `a | b` on `int`. -/
def int_or (a b : Int) : Int := signed_int.decode (bits a ||| bits b)

/-- C `~a` on `int`: every bit of the pattern flipped. -/
def int_not (a : Int) : Int := signed_int.decode (bits a ^^^ 0xffffffff)

/-- Value of a string of decimal digits, most significant first (a character
that is not a digit above `'0'` counts as zero). -/
def decimalValue (cs : List Char) : Nat := cs.foldl (fun acc c => 10 * acc + (c.toNat - 48)) 0

/-! ## `ptrace` request constants of x86 -/

/-- Modelled from the spec: the values `X86Arch::_id` of the request constants
(declared in `kernel_abi.h`, which is not among the sources), as in the Linux
headers for x86. -/
def X86Arch : PtraceReq → Int
  | .PTRACE_TRACEME => 0
  | .PTRACE_PEEKTEXT => 1
  | .PTRACE_PEEKDATA => 2
  | .PTRACE_PEEKUSR => 3
  | .PTRACE_POKETEXT => 4
  | .PTRACE_POKEDATA => 5
  | .PTRACE_POKEUSR => 6
  | .PTRACE_CONT => 7
  | .PTRACE_KILL => 8
  | .PTRACE_SINGLESTEP => 9
  | .PTRACE_GETREGS => 12
  | .PTRACE_SETREGS => 13
  | .PTRACE_GETFPREGS => 14
  | .PTRACE_SETFPREGS => 15
  | .PTRACE_GETFPXREGS => 18
  | .PTRACE_SETFPXREGS => 19
  | .PTRACE_ATTACH => 16
  | .PTRACE_DETACH => 17
  | .PTRACE_SYSCALL => 24
  | .PTRACE_SETOPTIONS => 0x4200
  | .PTRACE_GETEVENTMSG => 0x4201
  | .PTRACE_GETSIGINFO => 0x4202
  | .PTRACE_SETSIGINFO => 0x4203
  | .PTRACE_GETREGSET => 0x4204
  | .PTRACE_SETREGSET => 0x4205
  | .PTRACE_SEIZE => 0x4206
  | .PTRACE_INTERRUPT => 0x4207
  | .PTRACE_LISTEN => 0x4208
  | .PTRACE_GETSIGMASK => 0x420a
  | .PTRACE_SETSIGMASK => 0x420b
  | .PTRACE_GET_SYSCALL_INFO => 0x420e
  | .PTRACE_SYSEMU => 31
  | .PTRACE_SYSEMU_SINGLESTEP => 32

/-! ## Flag conversions and flag strings -/

/-- The constant `PROT_READ` of `<sys/mman.h>`. -/
def PROT_READ : Int := 1

/-- The constant `PROT_WRITE` of `<sys/mman.h>`. -/
def PROT_WRITE : Int := 2

/-- The constant `PROT_EXEC` of `<sys/mman.h>`. -/
def PROT_EXEC : Int := 4

/-- The constant `SHM_RDONLY` of `<linux/shm.h>` (octal `010000`, bit 12). -/
def SHM_RDONLY : Int := 4096

/-- The constant `SHM_EXEC` of `<linux/shm.h>` (octal `0100000`, bit 15). -/
def SHM_EXEC : Int := 32768

/-- The function `shm_flags_to_mmap_prot`. -/
def shm_flags_to_mmap_prot (flags : Int) : Int :=
  int_or (int_or PROT_READ (if int_and flags SHM_RDONLY ≠ 0 then 0 else PROT_WRITE))
    (if int_and flags SHM_EXEC ≠ 0 then PROT_EXEC else 0)

/-- C++ `ret.substr(0, ret.size() - 1)`. -/
def dropLastChar (ret : String) : String := ⟨ret.data.take (ret.length - 1)⟩

/-- The function `xsave_feature_string`; `xsave_features` is a `uint64_t`. -/
def xsave_feature_string (xsave_features : Nat) : String :=
  let ret := ""
  let ret := if xsave_features &&& 0x01 ≠ 0 then ret ++ "x87 " else ret
  let ret := if xsave_features &&& 0x02 ≠ 0 then ret ++ "SSE " else ret
  let ret := if xsave_features &&& 0x04 ≠ 0 then ret ++ "AVX " else ret
  let ret := if xsave_features &&& 0x08 ≠ 0 then ret ++ "MPX-BNDREGS " else ret
  let ret := if xsave_features &&& 0x10 ≠ 0 then ret ++ "MPX-BNDCSR " else ret
  let ret := if xsave_features &&& 0x20 ≠ 0 then ret ++ "AVX512-opmask " else ret
  let ret := if xsave_features &&& 0x40 ≠ 0 then ret ++ "AVX512-ZMM_Hi256 " else ret
  let ret := if xsave_features &&& 0x80 ≠ 0 then ret ++ "AVX512-Hi16_ZMM " else ret
  let ret := if xsave_features &&& 0x100 ≠ 0 then ret ++ "PT " else ret
  let ret := if xsave_features &&& 0x200 ≠ 0 then ret ++ "PKRU " else ret
  let ret := if xsave_features &&& 0x2000 ≠ 0 then ret ++ "HDC " else ret
  if ret.length > 0 then dropLastChar ret else ret

/-- The known feature bits and their names, as the specification lists them,
in ascending bit order. -/
def xsaveFeatureNames : List (Nat × String) :=
  [(0x01, "x87"), (0x02, "SSE"), (0x04, "AVX"), (0x08, "MPX-BNDREGS"), (0x10, "MPX-BNDCSR"),
    (0x20, "AVX512-opmask"), (0x40, "AVX512-ZMM_Hi256"), (0x80, "AVX512-Hi16_ZMM"),
    (0x100, "PT"), (0x200, "PKRU"), (0x2000, "HDC")]

/-- The names of the known feature bits that are set in `features`, in table
order. -/
def setFeatureNames (features : Nat) : List String :=
  (xsaveFeatureNames.filter (fun p => features &&& p.1 ≠ 0)).map (fun p => p.2)

/-- A list of words joined by exactly one space between neighbours, with
nothing before the first word or after the last. -/
def joinWithSpace : List String → String
  | [] => ""
  | [a] => a
  | a :: b :: rest => a ++ " " ++ joinWithSpace (b :: rest)

/-- A list of words, each followed by one space. -/
def concatWithSpace : List String → String
  | [] => ""
  | a :: rest => a ++ " " ++ concatWithSpace rest

/-- The function `prot_flags_string`.  The macro `HEX` is declared in `log.h`,
which is not among the sources; the text it writes for a value is the
parameter `HEX`. -/
def prot_flags_string (HEX : Int → String) (prot : Int) : String :=
  let prot_flags := ['r', 'w', 'x']
  let prot_flags := if int_and prot PROT_READ = 0 then prot_flags.set 0 '-' else prot_flags
  let prot_flags := if int_and prot PROT_WRITE = 0 then prot_flags.set 1 '-' else prot_flags
  let prot_flags := if int_and prot PROT_EXEC = 0 then prot_flags.set 2 '-' else prot_flags
  let ret : String := ⟨prot_flags⟩
  if int_and prot (int_not (int_or (int_or PROT_READ PROT_WRITE) PROT_EXEC)) ≠ 0 then
    ret ++ " (" ++ HEX prot ++ ")"
  else ret

/-- The names `signal_name` gives to the signals 1 to 64, in order. -/
def lowSignalNames : List String := (List.range 64).map (fun i => signal_name (i + 1 : Nat))

/-- The three flag characters the specification gives for `prot`: `r`, `w` and
`x` for the bits 0, 1 and 2 of its pattern that are set, `-` for those that
are clear. -/
def protChars (prot : Int) : List Char :=
  [if (bits prot).testBit 0 then 'r' else '-', if (bits prot).testBit 1 then 'w' else '-',
    if (bits prot).testBit 2 then 'x' else '-']

/-! ## Sample inputs -/

/-- A record image of all-`0xff` bytes: every header member reads `-1`, so the
code is `SI_QUEUE`. -/
def allOnes : Mem := fun _ => 255

/-- A record image of all-`0x01` bytes: a positive code with a signal number
that has no category. -/
def allOne : Mem := fun _ => 1

/-- A record image whose code is `SI_TKILL` and whose other bytes are `0x07`. -/
def tkill : Mem := fun i => if i = 8 then 250 else if 9 ≤ i ∧ i < 12 then 255 else 7

/-- The image `allOnes` with every byte from offset 24 on replaced by `0x03`. -/
def allOnesThenJunk : Mem := fun i => if i < 24 then 255 else 3

/-- An x86 record image of a `SIGSEGV` with code `SEGV_MAPERR` (1) and fault
address `0xdeadbeef`; every other byte is zero. -/
def segvRecord : Mem := fun i =>
  if i = 0 then 11 else if i = 8 then 1
  else if i = 12 then 0xef else if i = 13 then 0xbe else if i = 14 then 0xad
  else if i = 15 then 0xde else 0

/-- The record `segvRecord` with every byte from offset 28 on, past the x86
fault members, replaced by `0x55`. -/
def segvRecordJunk : Mem := fun i => if 28 ≤ i then 0x55 else segvRecord i

/-- A stack frame of zero bytes. -/
def zeroFrame : Frame := ⟨fun _ => 0, fun _ => 0⟩

/-! ## Lemmas: byte memories and integer conversion -/

theorem load_congr (w off : Nat) (m m' : Mem)
    (h : ∀ i, off ≤ i → i < off + w → m i = m' i) : load w off m = load w off m' := by
  induction w generalizing off with
  | zero => simp [load]
  | succ w ih =>
    simp only [load]
    rw [h off (le_refl _) (by omega), ih (off + 1) (fun i h1 h2 => h i (by omega) (by omega))]

theorem load_byteAt (w off v : Nat) (m : Mem) (k : Nat)
    (h : ∀ i, off ≤ i → i < off + w → m i = byteAt v (k + (i - off))) :
    load w off m = v / 256 ^ k % 256 ^ w := by
  induction w generalizing off k with
  | zero => simp [load, Nat.mod_one]
  | succ w ih =>
    simp only [load]
    rw [ih (off + 1) (k + 1) (fun i h1 h2 => by
      rw [h i (by omega) (by omega)]; congr 1; omega)]
    rw [h off (le_refl _) (by omega)]
    simp only [byteAt, Nat.sub_self, Nat.add_zero]
    rw [pow_succ 256 k, ← Nat.div_div_eq_div_mul, pow_succ 256 w, mul_comm (256 ^ w) 256,
      Nat.mod_mul]

theorem load_store_same (w off v : Nat) (m : Mem) :
    load w off (store w off v m) = v % 256 ^ w := by
  have := load_byteAt w off v (store w off v m) 0 (fun i h1 h2 => by
    simp [store, h1, h2])
  simpa using this

theorem ofBytes_snapshot (m : Mem) (n i : Nat) (h : i < n) : ofBytes (snapshot m n) i = m i := by
  simp [ofBytes, snapshot, List.getD, h]

theorem card_pos (t : IntTy) : 0 < t.card := by
  unfold IntTy.card; positivity

theorem encode_lt (t : IntTy) (v : Int) : t.encode v < t.card := by
  unfold IntTy.encode
  have h := card_pos t
  have := Int.emod_lt_of_pos v (show (0:Int) < t.card by exact_mod_cast h)
  have := Int.emod_nonneg v (show (t.card : Int) ≠ 0 by exact_mod_cast h.ne')
  omega

theorem conv_of_inRange (t : IntTy) (v : Int) (h : t.InRange v) : t.conv v = v := by
  have hc := card_pos t
  unfold IntTy.conv IntTy.decode
  have hlt := encode_lt t v
  rw [Nat.mod_eq_of_lt hlt]
  unfold IntTy.encode at *
  unfold IntTy.InRange at h
  have hnn := Int.emod_nonneg v (show (t.card : Int) ≠ 0 by exact_mod_cast hc.ne')
  rw [Int.toNat_of_nonneg hnn]
  cases hs : t.signed
  · simp only [hs, Bool.false_eq_true, ↓reduceIte, false_and] at h ⊢
    exact Int.emod_eq_of_lt h.1 h.2
  · simp only [hs, ↓reduceIte, true_and] at h ⊢
    by_cases hv : 0 ≤ v
    · have : v % (t.card : Int) = v := Int.emod_eq_of_lt hv (by omega)
      rw [this]
      rw [if_neg (by omega)]
    · have : v % (t.card : Int) = v + t.card := by
        rw [← Int.add_emod_self]
        exact Int.emod_eq_of_lt (by omega) (by omega)
      rw [this]
      rw [if_pos (by omega)]
      omega

theorem decode_inRange (t : IntTy) (u : Nat) (hb : 0 < t.bytes) : t.InRange (t.decode u) := by
  have hc := card_pos t
  have heven : 2 ∣ t.card := by
    unfold IntTy.card
    exact Dvd.dvd.pow (by norm_num) hb.ne'
  have hlt := Nat.mod_lt u hc
  unfold IntTy.decode IntTy.InRange
  cases hs : t.signed
  · simp only [Bool.false_eq_true, false_and, ↓reduceIte]
    omega
  · simp only [true_and, ↓reduceIte]
    split <;> omega

theorem decode_mod (t : IntTy) (u : Nat) : t.decode (u % t.card) = t.decode u := by
  unfold IntTy.decode
  rw [Nat.mod_mod]

theorem field_fits (a : SupportedArch) (f : Field) :
    f.off a + (f.ty a).bytes ≤ sizeof_siginfo_t a := by
  cases a <;> cases f <;> decide

theorem field_bytes_pos (a : SupportedArch) (f : Field) : 0 < (f.ty a).bytes := by
  cases a <;> cases f <;> decide

theorem readField_inRange (a : SupportedArch) (f : Field) (m : Mem) :
    (f.ty a).InRange (readField a f m) :=
  decode_inRange _ _ (field_bytes_pos a f)

theorem readField_writeField_same (a : SupportedArch) (f : Field) (v : Int) (m : Mem) :
    readField a f (writeField a f v m) = (f.ty a).conv v := by
  unfold readField writeField IntTy.conv
  rw [load_store_same]
  exact decode_mod _ _

theorem readField_congr (a : SupportedArch) (f : Field) (m m' : Mem)
    (h : ∀ i, f.covers a i → m i = m' i) : readField a f m = readField a f m' := by
  unfold readField
  rw [load_congr _ _ m m' (fun i h1 h2 => h i ⟨h1, h2⟩)]

theorem writeField_apply_of_not_covers (a : SupportedArch) (f : Field) (v : Int) (m : Mem) (i : Nat)
    (h : ¬ f.covers a i) : writeField a f v m i = m i := by
  unfold Field.covers at h
  simp only [writeField, store, h, if_false]

theorem readField_memcpy_sizeof (a : SupportedArch) (f : Field) (dst src : Mem) :
    readField a f (memcpy dst src (sizeof_siginfo_t a)) = readField a f src := by
  apply readField_congr
  intro i hi
  have := field_fits a f
  unfold Field.covers at hi
  simp only [memcpy]
  rw [if_pos (by omega)]

theorem readField_ofBytes_snapshot (a : SupportedArch) (f : Field) (m : Mem) :
    readField a f (ofBytes (snapshot m (sizeof_siginfo_t a))) = readField a f m := by
  apply readField_congr
  intro i hi
  have := field_fits a f
  unfold Field.covers at hi
  exact ofBytes_snapshot _ _ _ (by omega)

theorem readField_writeField_of_disjoint (a : SupportedArch) (f g : Field) (v : Int) (m : Mem)
    (h : f.disjoint a g) : readField a f (writeField a g v m) = readField a f m := by
  apply readField_congr
  intro i hi
  apply writeField_apply_of_not_covers
  unfold Field.covers Field.disjoint at *
  omega

theorem copyFields_nil (native arch : SupportedArch) (si m : Mem) :
    copyFields native arch si [] m = m := rfl

theorem copyFields_cons (native arch : SupportedArch) (si m : Mem) (f : Field) (l : List Field) :
    copyFields native arch si (f :: l) m
      = copyFields native arch si l (SI_COPY native arch f si m) := rfl

theorem copyFields_apply_of_not_covers (native arch : SupportedArch) (si : Mem) (l : List Field)
    (m : Mem) (i : Nat) (h : ∀ f ∈ l, ¬ f.covers native i) :
    copyFields native arch si l m i = m i := by
  induction l generalizing m with
  | nil => rfl
  | cons g l ih =>
    rw [copyFields_cons, ih _ (fun f hf => h f (List.mem_cons_of_mem _ hf))]
    exact writeField_apply_of_not_covers _ _ _ _ _ (h g (List.mem_cons_self _ _))

theorem readField_copyFields_of_disjoint (native arch : SupportedArch) (si : Mem) (l : List Field)
    (m : Mem) (f : Field) (h : ∀ g ∈ l, f.disjoint native g) :
    readField native f (copyFields native arch si l m) = readField native f m := by
  apply readField_congr
  intro i hi
  apply copyFields_apply_of_not_covers
  intro g hg hc
  have := h g hg
  unfold Field.covers Field.disjoint at *
  omega

theorem readField_copyFields_of_mem (native arch : SupportedArch) (si : Mem) (l : List Field)
    (m : Mem) (f : Field) (hp : l.Pairwise (Field.disjoint native)) (hf : f ∈ l) :
    readField native f (copyFields native arch si l m)
      = (f.ty native).conv (readField arch f si) := by
  induction l generalizing m with
  | nil => simp at hf
  | cons g l ih =>
    rw [copyFields_cons]
    rw [List.pairwise_cons] at hp
    by_cases hfl : f ∈ l
    · exact ih _ hp.2 hfl
    · have hfg : f = g := by
        rcases List.mem_cons.mp hf with h | h
        · exact h
        · exact absurd h hfl
      subst hfg
      rw [readField_copyFields_of_disjoint _ _ _ _ _ _ hp.1]
      exact readField_writeField_same _ _ _ _

theorem copyFields_congr (native arch : SupportedArch) (si si' : Mem) (l : List Field) (m : Mem)
    (h : ∀ f ∈ l, readField arch f si = readField arch f si') :
    copyFields native arch si l m = copyFields native arch si' l m := by
  induction l generalizing m with
  | nil => rfl
  | cons g l ih =>
    rw [copyFields_cons, copyFields_cons]
    unfold SI_COPY
    rw [h g (List.mem_cons_self _ _), ih _ (fun f hf => h f (List.mem_cons_of_mem _ hf))]

theorem payloadFields_pairwise (a : SupportedArch) (code signo : Int) :
    (payloadFields code signo).Pairwise (Field.disjoint a) := by
  unfold payloadFields
  split_ifs <;> cases a <;> decide

theorem payloadFields_off (a : SupportedArch) (code signo : Int) :
    ∀ f ∈ payloadFields code signo, sifields_offset a ≤ f.off a := by
  unfold payloadFields
  split_ifs <;> cases a <;> decide

theorem sifields_offset_ge (a : SupportedArch) : 12 ≤ sifields_offset a := by
  cases a <;> decide

theorem sifields_extent (a : SupportedArch) :
    sifields_offset a + sizeof_padding a = sizeof_siginfo_t a := by
  cases a <;> decide

theorem headerOnly_apply_payload (native arch : SupportedArch) (si r : Mem) (i : Nat)
    (h1 : sifields_offset native ≤ i) (h2 : i < sizeof_siginfo_t native) :
    headerOnly native arch si r i = 0 := by
  have := sifields_extent native
  simp only [headerOnly, memset]
  rw [if_pos (by omega)]

theorem headerOnly_apply_hole (native arch : SupportedArch) (si r : Mem) (i : Nat)
    (h1 : 12 ≤ i) (h2 : i < sifields_offset native) :
    headerOnly native arch si r i = r i := by
  simp only [headerOnly, memset]
  rw [if_neg (by omega)]
  rw [writeField_apply_of_not_covers, writeField_apply_of_not_covers,
    writeField_apply_of_not_covers]
  all_goals (simp only [Field.covers, Field.off, Field.ty, signed_int]; omega)

theorem headerOnly_apply_header (native arch : SupportedArch) (si r r' : Mem) (i : Nat)
    (h : i < 12) : headerOnly native arch si r i = headerOnly native arch si r' i := by
  have := sifields_offset_ge native
  simp only [headerOnly, memset]
  rw [if_neg (by omega), if_neg (by omega)]
  simp only [writeField, store, Field.off, Field.ty, signed_int]
  split_ifs <;> first | rfl | omega

theorem readField_header_headerOnly (native arch : SupportedArch) (si r : Mem) (f : Field)
    (hf : f = .si_signo ∨ f = .si_errno ∨ f = .si_code) :
    readField native f (headerOnly native arch si r) = readField arch f si := by
  have h12 := sifields_offset_ge native
  have hmem : readField native f (headerOnly native arch si r)
      = readField native f (writeField native .si_code (readField arch .si_code si)
          (writeField native .si_errno (readField arch .si_errno si)
            (writeField native .si_signo (readField arch .si_signo si) r))) := by
    apply readField_congr
    intro i hi
    simp only [headerOnly, memset]
    rw [if_neg]
    rcases hf with h | h | h <;> subst h <;>
      simp only [Field.covers, Field.off, Field.ty, signed_int] at hi <;> omega
  rw [hmem]
  have hconv : ∀ g : Field, (g = .si_signo ∨ g = .si_errno ∨ g = .si_code) →
      (g.ty native).conv (readField arch g si) = readField arch g si := by
    intro g hg
    apply conv_of_inRange
    have := readField_inRange arch g si
    rcases hg with h | h | h <;> subst h <;> exact this
  rcases hf with h | h | h <;> subst h
  · rw [readField_writeField_of_disjoint _ _ _ _ _ (by cases native <;> decide),
      readField_writeField_of_disjoint _ _ _ _ _ (by cases native <;> decide),
      readField_writeField_same]
    exact hconv _ (by simp)
  · rw [readField_writeField_of_disjoint _ _ _ _ _ (by cases native <;> decide),
      readField_writeField_same]
    exact hconv _ (by simp)
  · rw [readField_writeField_same]
    exact hconv _ (by simp)

theorem SI_COPY_memcpy_sizeof (native arch : SupportedArch) (f : Field) (dst src m : Mem) :
    SI_COPY native arch f (memcpy dst src (sizeof_siginfo_t arch)) m
      = SI_COPY native arch f src m := by
  unfold SI_COPY
  rw [readField_memcpy_sizeof]

theorem convert_cross (native arch : SupportedArch) (h : arch ≠ native) (data : Mem)
    (fr : Frame) :
    convert_to_native_siginfo_arch native arch data (sizeof_siginfo_t arch) fr
      = .ok (snapshot (copyFields native arch data
          (payloadFields (readField arch .si_code data) (readField arch .si_signo data))
          (headerOnly native arch data fr.result)) (sizeof_siginfo_t native)) := by
  have hbase : memset
      (writeField native .si_code (readField arch .si_code data)
        (writeField native .si_errno (readField arch .si_errno data)
          (writeField native .si_signo (readField arch .si_signo data) fr.result)))
      (sifields_offset native) 0 (sizeof_padding native)
        = headerOnly native arch data fr.result := rfl
  unfold convert_to_native_siginfo_arch
  simp only [ne_eq, not_true_eq_false, if_false, h, readField_memcpy_sizeof,
    SI_COPY_memcpy_sizeof, hbase]
  rw [readField_header_headerOnly _ _ _ _ _ (by simp),
    readField_header_headerOnly _ _ _ _ _ (by simp)]
  generalize readField arch .si_code data = c
  generalize readField arch .si_signo data = sg
  generalize headerOnly native arch data fr.result = base
  refine congrArg Except.ok (congrArg (fun m => snapshot m (sizeof_siginfo_t native)) ?_)
  simp only [payloadFields, SI_USER, SI_QUEUE, SI_MESGQ, SI_TIMER, SIGCHLD, SIGILL, SIGFPE, SIGSEGV, SIGBUS,
    SIGTRAP, SIGPOLL, SIGSYS]
  by_cases hc : c ≤ 0
  · simp only [hc, if_true]
    have : ¬ (0 < c) := by omega
    simp only [this, false_and, if_false]
    split_ifs <;> simp only [copyFields, List.foldl_cons, List.foldl_nil]
  · simp only [hc, if_false]
    have h0 : 0 < c := by omega
    have h1 : ¬ c = 0 := by omega
    have h2 : ¬ c = -1 := by omega
    have h3 : ¬ c = -2 := by omega
    have h4 : ¬ c = -3 := by omega
    simp only [h0, h1, h2, h3, h4, true_and, or_self, if_false]
    split_ifs <;> simp only [copyFields, List.foldl_cons, List.foldl_nil]

theorem snapshot_length (m : Mem) (n : Nat) : (snapshot m n).length = n := by
  simp [snapshot]

theorem snapshot_getElem? (m : Mem) (n i : Nat) (h : i < n) : (snapshot m n)[i]? = some (m i) := by
  simp [snapshot, List.getElem?_map, List.getElem?_range h]

theorem convert_dispatch (native arch : SupportedArch) (data : Mem) (size : Nat) (fr : Frame) :
    convert_to_native_siginfo native arch data size fr
      = convert_to_native_siginfo_arch native arch data size fr := by
  cases arch <;> rfl

theorem convert_native (a : SupportedArch) (data : Mem) (fr : Frame) :
    convert_to_native_siginfo_arch a a data (sizeof_siginfo_t a) fr
      = .ok (snapshot data (sizeof_siginfo_t a)) := by
  unfold convert_to_native_siginfo_arch
  simp only [ne_eq, not_true_eq_false, if_false, if_true]
  refine congrArg Except.ok ?_
  unfold snapshot
  apply List.map_congr_left
  intro i hi
  simp only [memcpy, List.mem_range.mp hi, if_true]

/-! ## Lemmas: category dispatch and stack independence -/

theorem header_extent (a : SupportedArch) (f : Field)
    (hf : f = .si_signo ∨ f = .si_errno ∨ f = .si_code) : f.off a + (f.ty a).bytes ≤ 12 := by
  rcases hf with h | h | h <;> subst h <;> cases a <;> decide

theorem readField_header_copyFields (native arch : SupportedArch) (si m : Mem) (code signo : Int)
    (f : Field) (hf : f = .si_signo ∨ f = .si_errno ∨ f = .si_code) :
    readField native f (copyFields native arch si (payloadFields code signo) m)
      = readField native f m := by
  apply readField_copyFields_of_disjoint
  intro g hg
  have h1 := payloadFields_off native code signo g hg
  have h2 := sifields_offset_ge native
  have h3 := header_extent native f hf
  unfold Field.disjoint
  omega

theorem cross_payload_zero (native arch : SupportedArch) (data r : Mem) (l : List Field) (i : Nat)
    (h1 : sifields_offset native ≤ i) (h2 : i < sizeof_siginfo_t native)
    (h3 : ∀ f ∈ l, ¬ f.covers native i) :
    (snapshot (copyFields native arch data l (headerOnly native arch data r))
      (sizeof_siginfo_t native))[i]? = some 0 := by
  rw [snapshot_getElem? _ _ _ h2, copyFields_apply_of_not_covers _ _ _ _ _ _ h3,
    headerOnly_apply_payload _ _ _ _ _ h1 h2]

theorem payloadFields_eq_nil (code signo : Int)
    (h : (code ≤ 0 ∧ code ≠ SI_USER ∧ code ≠ SI_QUEUE ∧ code ≠ SI_MESGQ ∧ code ≠ SI_TIMER)
      ∨ (0 < code ∧ signo ≠ SIGCHLD ∧ signo ≠ SIGILL ∧ signo ≠ SIGFPE ∧ signo ≠ SIGSEGV
          ∧ signo ≠ SIGBUS ∧ signo ≠ SIGTRAP ∧ signo ≠ SIGPOLL ∧ signo ≠ SIGSYS)) :
    payloadFields code signo = [] := by
  unfold payloadFields
  unfold SI_USER SI_QUEUE SI_MESGQ SI_TIMER SIGCHLD SIGILL SIGFPE SIGSEGV SIGBUS SIGTRAP SIGPOLL
    SIGSYS at *
  split_ifs <;> first | rfl | omega

theorem conv_unsigned (t : IntTy) (hs : t.signed = false) (v : Int) :
    t.conv v = v % (t.card : Int) := by
  have hc := card_pos t
  have hlt := encode_lt t v
  unfold IntTy.conv IntTy.decode
  rw [Nat.mod_eq_of_lt hlt]
  simp only [hs, Bool.false_eq_true, false_and, if_false]
  unfold IntTy.encode
  exact Int.toNat_of_nonneg (Int.emod_nonneg v (by exact_mod_cast hc.ne'))

theorem pointerFields_ty (a : SupportedArch) :
    ∀ f ∈ pointerFields, f.ty a = unsigned_word a := by
  cases a <;> decide

theorem writeField_apply_congr (a : SupportedArch) (f : Field) (v : Int) (m m' : Mem) (i : Nat)
    (h : m i = m' i) : writeField a f v m i = writeField a f v m' i := by
  simp only [writeField, store, h]

theorem copyFields_apply_congr (native arch : SupportedArch) (si : Mem) (l : List Field)
    (m m' : Mem) (i : Nat) (h : m i = m' i) :
    copyFields native arch si l m i = copyFields native arch si l m' i := by
  induction l generalizing m m' with
  | nil => exact h
  | cons g l ih =>
    rw [copyFields_cons, copyFields_cons]
    exact ih _ _ (writeField_apply_congr _ _ _ _ _ _ h)

theorem headerOnly_congr (native arch : SupportedArch) (si si' r : Mem)
    (h1 : readField arch .si_signo si = readField arch .si_signo si')
    (h2 : readField arch .si_errno si = readField arch .si_errno si')
    (h3 : readField arch .si_code si = readField arch .si_code si') :
    headerOnly native arch si r = headerOnly native arch si' r := by
  unfold headerOnly
  rw [h1, h2, h3]

theorem headerOnly_apply_frame (native arch : SupportedArch) (si r r' : Mem) (i : Nat)
    (h : i < 12 ∨ sifields_offset native ≤ i) (h2 : i < sizeof_siginfo_t native) :
    headerOnly native arch si r i = headerOnly native arch si r' i := by
  rcases h with h | h
  · exact headerOnly_apply_header _ _ _ _ _ _ h
  · rw [headerOnly_apply_payload _ _ _ _ _ h h2, headerOnly_apply_payload _ _ _ _ _ h h2]

/-! ## Lemmas: resolvers -/

theorem append_ne_empty (s t : String) (h : s ≠ "") : s ++ t ≠ "" := by
  intro he
  apply h
  have hl : (s ++ t).length = 0 := by rw [he]; rfl
  rw [String.length_append] at hl
  have hs : s.length = 0 := by omega
  cases s with
  | mk d =>
    simp only [String.length, List.length_eq_zero] at hs
    subst hs
    rfl

theorem snprintf_ne_empty (size : Nat) (s : String) (hsize : 2 ≤ size) (h : s ≠ "") :
    snprintf size s ≠ "" := by
  cases s with
  | mk d =>
    cases d with
    | nil => exact absurd rfl h
    | cons c cs =>
      obtain ⟨k, hk⟩ : ∃ k, size - 1 = k + 1 := ⟨size - 2, by omega⟩
      unfold snprintf
      simp only [hk, List.take_succ_cons]
      intro he
      have := congrArg String.length he
      simp [String.length] at this

theorem switchCase_mem (cases : List (Int × String)) (v : Int) (name : String)
    (h : switchCase cases v = some name) : ∃ c ∈ cases, c.2 = name := by
  unfold switchCase at h
  rw [Option.map_eq_some'] at h
  obtain ⟨c, hc, hn⟩ := h
  exact ⟨c, List.mem_of_find?_eq_some hc, hn⟩

theorem switchCase_ne_empty (cases : List (Int × String)) (v : Int) (name : String)
    (hall : ∀ c ∈ cases, c.2 ≠ "") (h : switchCase cases v = some name) : name ≠ "" := by
  obtain ⟨c, hc, hn⟩ := switchCase_mem cases v name h
  rw [← hn]
  exact hall c hc

theorem signal_name_ne_empty (sig : Int) : signal_name sig ≠ "" := by
  unfold signal_name
  split
  · exact snprintf_ne_empty _ _ (by decide) (append_ne_empty _ _ (by decide))
  · split
    · next name hn => exact switchCase_ne_empty _ _ _ (by decide) hn
    · split
      · decide
      · exact snprintf_ne_empty _ _ (by decide)
          (append_ne_empty _ _ (append_ne_empty _ _ (by decide)))

set_option maxRecDepth 8000 in
theorem errnoCases_ne_empty : ∀ c ∈ errnoCases, c.2 ≠ "" := by
  decide

theorem errno_name_ne_empty (err : Int) : errno_name err ≠ "" := by
  unfold errno_name
  split
  · exact snprintf_ne_empty _ _ (by decide)
      (append_ne_empty _ _ (append_ne_empty _ _ (by decide)))
  · next name hn =>
    unfold errno_name_cstr at hn
    split at hn
    · cases hn; decide
    · exact switchCase_ne_empty _ _ _ errnoCases_ne_empty hn

theorem ptrace_event_name_ne_empty (event : Int) : ptrace_event_name event ≠ "" := by
  unfold ptrace_event_name
  split
  · next name hn => exact switchCase_ne_empty _ _ _ (by decide) hn
  · split
    · decide
    · exact snprintf_ne_empty _ _ (by decide)
        (append_ne_empty _ _ (append_ne_empty _ _ (by decide)))

theorem ptrace_req_name_ne_empty (Arch : PtraceReq → Int) (request : Int) :
    ptrace_req_name Arch request ≠ "" := by
  unfold ptrace_req_name
  split
  · next r _ => cases r <;> decide
  · exact snprintf_ne_empty _ _ (by decide)
      (append_ne_empty _ _ (append_ne_empty _ _ (by decide)))

theorem signalCodeCases_ne_empty (sig : Int) : ∀ c ∈ signalCodeCases sig, c.2 ≠ "" := by
  unfold signalCodeCases
  split_ifs <;> decide

theorem sicode_name_ne_empty (code sig : Int) : sicode_name code sig ≠ "" := by
  unfold sicode_name
  split
  · next name hn => exact switchCase_ne_empty _ _ _ (by decide) hn
  · split
    · next name hn => exact switchCase_ne_empty _ _ _ (signalCodeCases_ne_empty sig) hn
    · exact snprintf_ne_empty _ _ (by decide)
        (append_ne_empty _ _ (append_ne_empty _ _ (by decide)))

theorem arch_name_ne_empty (arch : Int) : arch_name arch ≠ "" := by
  unfold arch_name
  split_ifs
  · decide
  · decide
  · decide
  · exact snprintf_ne_empty _ _ (by decide) (append_ne_empty _ _ (by decide))

/-! ## The claims -/

/-- Claim C1.  For every native build, source tag, data, size and frame:
`convert_to_native_siginfo` ends in `FATAL()` exactly when `size` differs from
the size of the source architecture's `siginfo_t`; it returns a record (of the
native size) exactly when `size` matches; and whether it returns is the same
for any other data and frame, so the outcome depends on the tag and the size
only. -/
theorem convert_to_native_siginfo_fatal_iff (native arch : SupportedArch) (data data' : Mem)
    (size : Nat) (fr fr' : Frame) :
    (convert_to_native_siginfo native arch data size fr = .error "Siginfo has wrong size"
        ↔ size ≠ sizeof_siginfo_t arch)
      ∧ ((∃ r, convert_to_native_siginfo native arch data size fr = .ok r
            ∧ r.length = sizeof_siginfo_t native) ↔ size = sizeof_siginfo_t arch)
      ∧ ((∃ r, convert_to_native_siginfo native arch data size fr = .ok r)
          ↔ ∃ r', convert_to_native_siginfo native arch data' size fr' = .ok r') := by
  rw [convert_dispatch, convert_dispatch]
  by_cases hs : size = sizeof_siginfo_t arch
  · subst hs
    by_cases ha : arch = native
    · subst ha
      simp [convert_native, snapshot_length]
    · simp [convert_cross _ _ ha, snapshot_length]
  · simp [convert_to_native_siginfo_arch, hs]

/-- Claim C2.  When the source tag is the native architecture and the size
precondition holds, the returned record is the first `sizeof(siginfo_t)` bytes
of the input, byte for byte, whatever signal number, code and payload they
hold. -/
theorem convert_native_bit_identical (native arch : SupportedArch) (data : Mem) (size : Nat)
    (fr : Frame) (harch : arch = native) (hsize : size = sizeof_siginfo_t arch) :
    convert_to_native_siginfo native arch data size fr
        = .ok (snapshot data (sizeof_siginfo_t native))
      ∧ ∀ i, i < sizeof_siginfo_t native →
          (snapshot data (sizeof_siginfo_t native))[i]? = some (data i) := by
  subst harch hsize
  rw [convert_dispatch, convert_native]
  exact ⟨rfl, fun i hi => snapshot_getElem? _ _ _ hi⟩

/-- Witness for claim C2: `convert_native_bit_identical` at a concrete input. -/
theorem convert_native_bit_identical_witness :
    convert_to_native_siginfo .aarch64 .aarch64 tkill 128 zeroFrame
        = .ok (snapshot tkill (sizeof_siginfo_t .aarch64))
      ∧ ∀ i, i < sizeof_siginfo_t .aarch64 →
          (snapshot tkill (sizeof_siginfo_t .aarch64))[i]? = some (tkill i) :=
  convert_native_bit_identical .aarch64 .aarch64 tkill 128 zeroFrame rfl rfl

/-- Claim C3.  For every source tag, native or not, and every input of the
right size, the returned record read in the native layout has `si_signo`,
`si_errno` and `si_code` equal to those read from the input in the source
layout. -/
theorem convert_header_preserved (native arch : SupportedArch) (data : Mem) (size : Nat)
    (fr : Frame) (hsize : size = sizeof_siginfo_t arch) :
    ∃ r, convert_to_native_siginfo native arch data size fr = .ok r
      ∧ readField native .si_signo (ofBytes r) = readField arch .si_signo data
      ∧ readField native .si_errno (ofBytes r) = readField arch .si_errno data
      ∧ readField native .si_code (ofBytes r) = readField arch .si_code data := by
  subst hsize
  rw [convert_dispatch]
  by_cases ha : arch = native
  · subst ha
    exact ⟨_, convert_native _ _ _, readField_ofBytes_snapshot _ _ _,
      readField_ofBytes_snapshot _ _ _, readField_ofBytes_snapshot _ _ _⟩
  · refine ⟨_, convert_cross _ _ ha _ _, ?_, ?_, ?_⟩ <;>
      rw [readField_ofBytes_snapshot, readField_header_copyFields _ _ _ _ _ _ _ (by simp),
        readField_header_headerOnly _ _ _ _ _ (by simp)]

/-- Witness for claim C3: `convert_header_preserved` at a concrete input. -/
theorem convert_header_preserved_witness :
    ∃ r, convert_to_native_siginfo .x86_64 .x86 tkill 128 zeroFrame = .ok r
      ∧ readField .x86_64 .si_signo (ofBytes r) = readField .x86 .si_signo tkill
      ∧ readField .x86_64 .si_errno (ofBytes r) = readField .x86 .si_errno tkill
      ∧ readField .x86_64 .si_code (ofBytes r) = readField .x86 .si_code tkill :=
  convert_header_preserved .x86_64 .x86 tkill 128 zeroFrame rfl

/-- Claim C4.  On the cross-architecture path the returned record is the
header, a zeroed payload, and `SI_COPY` of exactly the members that the
category table `payloadFields` gives for `(si_code, si_signo)`: each of those
members holds the source member converted to the native member type, every
payload byte outside them is zero, and a record with code `SI_USER` and signal
`SIGSEGV` is given the kill members, not the fault members. -/
theorem convert_payload_dispatch (native arch : SupportedArch) (data : Mem) (size : Nat)
    (fr : Frame) (hne : arch ≠ native) (hsize : size = sizeof_siginfo_t arch) :
    ∃ r, convert_to_native_siginfo native arch data size fr = .ok r
      ∧ r = snapshot (copyFields native arch data
            (payloadFields (readField arch .si_code data) (readField arch .si_signo data))
            (headerOnly native arch data fr.result)) (sizeof_siginfo_t native)
      ∧ (∀ f ∈ payloadFields (readField arch .si_code data) (readField arch .si_signo data),
          readField native f (ofBytes r) = (f.ty native).conv (readField arch f data))
      ∧ (∀ i, sifields_offset native ≤ i → i < sizeof_siginfo_t native →
          (∀ f ∈ payloadFields (readField arch .si_code data) (readField arch .si_signo data),
            ¬ f.covers native i) → r[i]? = some 0)
      ∧ payloadFields SI_USER SIGSEGV = [.kill_si_pid, .kill_si_uid] := by
  subst hsize
  rw [convert_dispatch]
  refine ⟨_, convert_cross _ _ hne _ _, rfl, ?_, ?_, by decide⟩
  · intro f hf
    rw [readField_ofBytes_snapshot]
    exact readField_copyFields_of_mem _ _ _ _ _ _ (payloadFields_pairwise _ _ _) hf
  · intro i h1 h2 h3
    exact cross_payload_zero _ _ _ _ _ _ h1 h2 h3

/-- Witness for claim C4: `convert_payload_dispatch` at a concrete input. -/
theorem convert_payload_dispatch_witness :
    ∃ r, convert_to_native_siginfo .x86 .x86_64 allOnes 128 zeroFrame = .ok r
      ∧ r = snapshot (copyFields .x86 .x86_64 allOnes
            (payloadFields (readField .x86_64 .si_code allOnes)
              (readField .x86_64 .si_signo allOnes))
            (headerOnly .x86 .x86_64 allOnes zeroFrame.result)) (sizeof_siginfo_t .x86)
      ∧ (∀ f ∈ payloadFields (readField .x86_64 .si_code allOnes)
            (readField .x86_64 .si_signo allOnes),
          readField .x86 f (ofBytes r) = (f.ty .x86).conv (readField .x86_64 f allOnes))
      ∧ (∀ i, sifields_offset .x86 ≤ i → i < sizeof_siginfo_t .x86 →
          (∀ f ∈ payloadFields (readField .x86_64 .si_code allOnes)
              (readField .x86_64 .si_signo allOnes), ¬ f.covers .x86 i) → r[i]? = some 0)
      ∧ payloadFields SI_USER SIGSEGV = [.kill_si_pid, .kill_si_uid] :=
  convert_payload_dispatch .x86 .x86_64 allOnes 128 zeroFrame (by decide) rfl

/-- Claim C5.  For a non-native source and an input whose header matches no
category (a non-positive code other than `SI_USER`, `SI_QUEUE`, `SI_MESGQ`,
`SI_TIMER`, or a positive code with a signal outside the eight dispatched
ones), the returned record has the header of the source and every byte of the
payload union equal to zero. -/
theorem convert_unknown_discriminant (native arch : SupportedArch) (data : Mem) (size : Nat)
    (fr : Frame) (hne : arch ≠ native) (hsize : size = sizeof_siginfo_t arch)
    (hcat : (readField arch .si_code data ≤ 0 ∧ readField arch .si_code data ≠ SI_USER
          ∧ readField arch .si_code data ≠ SI_QUEUE ∧ readField arch .si_code data ≠ SI_MESGQ
          ∧ readField arch .si_code data ≠ SI_TIMER)
      ∨ (0 < readField arch .si_code data ∧ readField arch .si_signo data ≠ SIGCHLD
          ∧ readField arch .si_signo data ≠ SIGILL ∧ readField arch .si_signo data ≠ SIGFPE
          ∧ readField arch .si_signo data ≠ SIGSEGV ∧ readField arch .si_signo data ≠ SIGBUS
          ∧ readField arch .si_signo data ≠ SIGTRAP ∧ readField arch .si_signo data ≠ SIGPOLL
          ∧ readField arch .si_signo data ≠ SIGSYS)) :
    ∃ r, convert_to_native_siginfo native arch data size fr = .ok r
      ∧ readField native .si_signo (ofBytes r) = readField arch .si_signo data
      ∧ readField native .si_errno (ofBytes r) = readField arch .si_errno data
      ∧ readField native .si_code (ofBytes r) = readField arch .si_code data
      ∧ ∀ i, sifields_offset native ≤ i → i < sizeof_siginfo_t native → r[i]? = some 0 := by
  subst hsize
  rw [convert_dispatch]
  have hnil := payloadFields_eq_nil _ _ hcat
  refine ⟨_, convert_cross _ _ hne _ _, ?_, ?_, ?_, ?_⟩
  · rw [readField_ofBytes_snapshot, readField_header_copyFields _ _ _ _ _ _ _ (by simp),
      readField_header_headerOnly _ _ _ _ _ (by simp)]
  · rw [readField_ofBytes_snapshot, readField_header_copyFields _ _ _ _ _ _ _ (by simp),
      readField_header_headerOnly _ _ _ _ _ (by simp)]
  · rw [readField_ofBytes_snapshot, readField_header_copyFields _ _ _ _ _ _ _ (by simp),
      readField_header_headerOnly _ _ _ _ _ (by simp)]
  · intro i h1 h2
    apply cross_payload_zero _ _ _ _ _ _ h1 h2
    rw [hnil]
    intro f hf
    simp at hf

/-- Witness for claim C5: `convert_unknown_discriminant` at a concrete input. -/
theorem convert_unknown_discriminant_witness :
    ∃ r, convert_to_native_siginfo .x86_64 .x86 tkill 128 zeroFrame = .ok r
      ∧ readField .x86_64 .si_signo (ofBytes r) = readField .x86 .si_signo tkill
      ∧ readField .x86_64 .si_errno (ofBytes r) = readField .x86 .si_errno tkill
      ∧ readField .x86_64 .si_code (ofBytes r) = readField .x86 .si_code tkill
      ∧ ∀ i, sifields_offset .x86_64 ≤ i → i < sizeof_siginfo_t .x86_64 → r[i]? = some 0 :=
  convert_unknown_discriminant .x86_64 .x86 tkill 128 zeroFrame (by decide) rfl
    (Or.inl (by decide))

/-- Claim C6.  For every pointer-valued member copied on the
cross-architecture path: from a 64-bit source into a 32-bit native record the
member holds the source value modulo `2^32`; from a 32-bit source into a 64-bit
native record it holds the source value itself, which is non-negative and
below `2^32` (zero-extended, never sign-extended). -/
theorem convert_pointer_width (native arch : SupportedArch) (data : Mem) (size : Nat)
    (fr : Frame) (f : Field) (hne : arch ≠ native) (hsize : size = sizeof_siginfo_t arch)
    (hptr : f ∈ pointerFields)
    (hsel : f ∈ payloadFields (readField arch .si_code data) (readField arch .si_signo data)) :
    ∃ r, convert_to_native_siginfo native arch data size fr = .ok r
      ∧ (wordBytes arch = 8 → wordBytes native = 4 →
          readField native f (ofBytes r) = readField arch f data % 2 ^ 32)
      ∧ (wordBytes arch = 4 → wordBytes native = 8 →
          readField native f (ofBytes r) = readField arch f data
            ∧ 0 ≤ readField native f (ofBytes r) ∧ readField native f (ofBytes r) < 2 ^ 32) := by
  subst hsize
  rw [convert_dispatch]
  have hval : readField native f (ofBytes (snapshot (copyFields native arch data
      (payloadFields (readField arch .si_code data) (readField arch .si_signo data))
      (headerOnly native arch data fr.result)) (sizeof_siginfo_t native)))
        = (f.ty native).conv (readField arch f data) := by
    rw [readField_ofBytes_snapshot]
    exact readField_copyFields_of_mem _ _ _ _ _ _ (payloadFields_pairwise _ _ _) hsel
  refine ⟨_, convert_cross _ _ hne _ _, ?_, ?_⟩
  · intro _ hn
    rw [hval, pointerFields_ty native f hptr, conv_unsigned _ rfl]
    simp only [IntTy.card, unsigned_word, hn]
    norm_num
  · intro ha hn
    have hr := readField_inRange arch f data
    rw [pointerFields_ty arch f hptr] at hr
    simp only [IntTy.InRange, unsigned_word, IntTy.card, ha, Bool.false_eq_true, if_false] at hr
    have hc : (f.ty native).conv (readField arch f data) = readField arch f data := by
      apply conv_of_inRange
      rw [pointerFields_ty native f hptr]
      simp only [IntTy.InRange, unsigned_word, IntTy.card, hn, Bool.false_eq_true, if_false]
      norm_num at hr ⊢
      omega
    rw [hval, hc]
    norm_num at hr ⊢
    omega

/-- Witness for claim C6: `convert_pointer_width` at a concrete input. -/
theorem convert_pointer_width_witness :
    ∃ r, convert_to_native_siginfo .x86 .x86_64 allOnes 128 zeroFrame = .ok r
      ∧ (wordBytes .x86_64 = 8 → wordBytes .x86 = 4 →
          readField .x86 .rt_si_sigval_ptr (ofBytes r)
            = readField .x86_64 .rt_si_sigval_ptr allOnes % 2 ^ 32)
      ∧ (wordBytes .x86_64 = 4 → wordBytes .x86 = 8 →
          readField .x86 .rt_si_sigval_ptr (ofBytes r) = readField .x86_64 .rt_si_sigval_ptr allOnes
            ∧ 0 ≤ readField .x86 .rt_si_sigval_ptr (ofBytes r)
            ∧ readField .x86 .rt_si_sigval_ptr (ofBytes r) < 2 ^ 32) :=
  convert_pointer_width .x86 .x86_64 allOnes 128 zeroFrame .rt_si_sigval_ptr (by decide) rfl
    (by decide) (by decide)

/-- Payload isolation up to the alignment bytes.  For a non-native source and
two inputs with the same header and the same values in the source members of
the selected category: from the same stack contents the two returned records
are identical; from different stack contents they agree on every byte of the
header and of the payload union (the bytes between them are not covered); and
every payload byte outside the copied members is zero in both. -/
theorem convert_payload_isolation (native arch : SupportedArch) (d1 d2 : Mem) (size : Nat)
    (fr fr' : Frame) (hne : arch ≠ native) (hsize : size = sizeof_siginfo_t arch)
    (hsigno : readField arch .si_signo d1 = readField arch .si_signo d2)
    (herrno : readField arch .si_errno d1 = readField arch .si_errno d2)
    (hcode : readField arch .si_code d1 = readField arch .si_code d2)
    (hfields : ∀ f ∈ payloadFields (readField arch .si_code d1) (readField arch .si_signo d1),
      readField arch f d1 = readField arch f d2) :
    convert_to_native_siginfo native arch d1 size fr
        = convert_to_native_siginfo native arch d2 size fr
      ∧ ∃ r r', convert_to_native_siginfo native arch d1 size fr = .ok r
          ∧ convert_to_native_siginfo native arch d2 size fr' = .ok r'
          ∧ (∀ i, i < sizeof_siginfo_t native → (i < 12 ∨ sifields_offset native ≤ i) →
              r[i]? = r'[i]?)
          ∧ (∀ i, sifields_offset native ≤ i → i < sizeof_siginfo_t native →
              (∀ f ∈ payloadFields (readField arch .si_code d1) (readField arch .si_signo d1),
                ¬ f.covers native i) → r[i]? = some 0 ∧ r'[i]? = some 0) := by
  subst hsize
  simp only [convert_dispatch, convert_cross _ _ hne]
  have hmem : copyFields native arch d1
      (payloadFields (readField arch .si_code d1) (readField arch .si_signo d1))
      (headerOnly native arch d1 fr.result)
        = copyFields native arch d2
            (payloadFields (readField arch .si_code d2) (readField arch .si_signo d2))
            (headerOnly native arch d2 fr.result) := by
    rw [← hsigno, ← hcode, ← headerOnly_congr native arch d1 d2 _ hsigno herrno hcode]
    exact copyFields_congr _ _ _ _ _ _ hfields
  refine ⟨by rw [hmem], _, _, rfl, rfl, ?_, ?_⟩
  · intro i hi hreg
    rw [hmem, snapshot_getElem? _ _ _ hi, snapshot_getElem? _ _ _ hi]
    exact congrArg some (copyFields_apply_congr _ _ _ _ _ _ _
      (headerOnly_apply_frame _ _ _ _ _ _ hreg hi))
  · intro i h1 h2 h3
    refine ⟨cross_payload_zero _ _ _ _ _ _ h1 h2 h3, ?_⟩
    rw [← hsigno, ← hcode]
    refine cross_payload_zero _ _ _ _ _ _ h1 h2 h3

/-- The lemma `convert_payload_isolation` at a concrete pair of inputs. -/
theorem convert_payload_isolation_witness :
    convert_to_native_siginfo .x86_64 .x86 allOnes 128 zeroFrame
        = convert_to_native_siginfo .x86_64 .x86 allOnesThenJunk 128 zeroFrame
      ∧ ∃ r r', convert_to_native_siginfo .x86_64 .x86 allOnes 128 zeroFrame = .ok r
          ∧ convert_to_native_siginfo .x86_64 .x86 allOnesThenJunk 128 ⟨allOne, allOnes⟩ = .ok r'
          ∧ (∀ i, i < sizeof_siginfo_t .x86_64 → (i < 12 ∨ sifields_offset .x86_64 ≤ i) →
              r[i]? = r'[i]?)
          ∧ (∀ i, sifields_offset .x86_64 ≤ i → i < sizeof_siginfo_t .x86_64 →
              (∀ f ∈ payloadFields (readField .x86 .si_code allOnes)
                  (readField .x86 .si_signo allOnes), ¬ f.covers .x86_64 i) →
                r[i]? = some 0 ∧ r'[i]? = some 0) :=
  convert_payload_isolation .x86_64 .x86 allOnes allOnesThenJunk 128 zeroFrame ⟨allOne, allOnes⟩
    (by decide) rfl (by decide) (by decide) (by decide) (by decide)

/-- Claim C7, evaluated at the failing input.  With an x86-64 native build and
an x86 source, the records `segvRecord` and `segvRecordJunk` have the same
header and the same values in the fault members selected by it and differ only
in other payload bytes, yet the two calls do not return identical records:
byte 12, an alignment byte the translation never writes, is `0x00` in one and
`0xff` in the other, as the local `result` held before each call. -/
theorem isolated_inputs_differ_by_frame :
    readField .x86 .si_signo segvRecord = readField .x86 .si_signo segvRecordJunk
      ∧ readField .x86 .si_errno segvRecord = readField .x86 .si_errno segvRecordJunk
      ∧ readField .x86 .si_code segvRecord = readField .x86 .si_code segvRecordJunk
      ∧ (∀ f ∈ payloadFields (readField .x86 .si_code segvRecord)
            (readField .x86 .si_signo segvRecord),
          readField .x86 f segvRecord = readField .x86 f segvRecordJunk)
      ∧ ∃ r r', convert_to_native_siginfo .x86_64 .x86 segvRecord 128
            ⟨fun _ => 0, fun _ => 0⟩ = .ok r
          ∧ convert_to_native_siginfo .x86_64 .x86 segvRecordJunk 128
            ⟨fun _ => 0, fun _ => 255⟩ = .ok r'
          ∧ r[12]? = some 0 ∧ r'[12]? = some 255 ∧ r ≠ r' := by
  have h : ∀ (d m : Mem), (∀ f ∈ payloadFields (readField .x86 .si_code d)
        (readField .x86 .si_signo d), ¬ f.covers .x86_64 12) →
      (snapshot (copyFields .x86_64 .x86 d
        (payloadFields (readField .x86 .si_code d) (readField .x86 .si_signo d))
        (headerOnly .x86_64 .x86 d m)) (sizeof_siginfo_t .x86_64))[12]? = some (m 12) := by
    intro d m hd
    rw [snapshot_getElem? _ _ _ (by decide), copyFields_apply_of_not_covers _ _ _ _ _ _ hd,
      headerOnly_apply_hole _ _ _ _ _ (by decide) (by decide)]
  have h0 := h segvRecord (fun _ => 0) (by decide)
  have h1 := h segvRecordJunk (fun _ => 255) (by decide)
  refine ⟨by decide, by decide, by decide, by decide, _, _,
    convert_cross .x86_64 .x86 (by decide) _ _, convert_cross .x86_64 .x86 (by decide) _ _,
    h0, h1, ?_⟩
  intro heq
  rw [heq, h1] at h0
  exact absurd h0 (by decide)

/-- Claim C8, evaluated at the failing input.  With an x86-64 native build and
an x86 source, two calls on the same `SIGSEGV` record that differ only in the
prior contents of the local `result` return different records: byte 12, an
alignment byte between `si_code` and `_sifields`, is whatever `result` held
before the call. -/
theorem convert_alignment_bytes_from_frame :
    ∃ r r', convert_to_native_siginfo .x86_64 .x86 segvRecord 128 ⟨fun _ => 0, fun _ => 0⟩
          = .ok r
      ∧ convert_to_native_siginfo .x86_64 .x86 segvRecord 128 ⟨fun _ => 0, fun _ => 255⟩
          = .ok r'
      ∧ r[12]? = some 0 ∧ r'[12]? = some 255 ∧ r ≠ r' := by
  have h : ∀ m : Mem, (snapshot (copyFields .x86_64 .x86 segvRecord
      (payloadFields (readField .x86 .si_code segvRecord) (readField .x86 .si_signo segvRecord))
      (headerOnly .x86_64 .x86 segvRecord m)) (sizeof_siginfo_t .x86_64))[12]? = some (m 12) := by
    intro m
    rw [snapshot_getElem? _ _ _ (by decide), copyFields_apply_of_not_covers _ _ _ _ _ _ (by decide),
      headerOnly_apply_hole _ _ _ _ _ (by decide) (by decide)]
  refine ⟨_, _, convert_cross .x86_64 .x86 (by decide) _ _,
    convert_cross .x86_64 .x86 (by decide) _ _, h _, h _, ?_⟩
  intro heq
  have h0 := h (fun _ => 0)
  rw [heq, h (fun _ => 255)] at h0
  exact absurd h0 (by decide)

/-- Claim C9, counterexample.  On the native path (x86-64 to x86-64) an input
of all-`0x01` bytes has a header that selects no category, yet byte 16 of the
returned record, a payload byte outside every copied member, is `0x01`. -/
theorem native_path_payload_not_zeroed :
    ∃ r i, convert_to_native_siginfo .x86_64 .x86_64 allOne 128 zeroFrame = .ok r
      ∧ sifields_offset .x86_64 ≤ i ∧ i < sizeof_siginfo_t .x86_64
      ∧ (∀ f ∈ payloadFields (readField .x86_64 .si_code allOne)
            (readField .x86_64 .si_signo allOne), ¬ f.covers .x86_64 i)
      ∧ r[i]? ≠ some 0 := by
  refine ⟨_, 16, convert_native .x86_64 allOne zeroFrame, by decide, by decide, by decide, ?_⟩
  rw [snapshot_getElem? _ _ _ (by decide)]
  decide

/-- Claim C9, amended.  For every non-native source architecture and every
input of the right size, every payload byte of the returned record that lies
in no member of the category selected by `(si_code, si_signo)` is zero. -/
theorem convert_cross_payload_invariant (native arch : SupportedArch) (data : Mem) (size : Nat)
    (fr : Frame) (hne : arch ≠ native) (hsize : size = sizeof_siginfo_t arch) :
    ∃ r, convert_to_native_siginfo native arch data size fr = .ok r
      ∧ ∀ i, sifields_offset native ≤ i → i < sizeof_siginfo_t native →
          (∀ f ∈ payloadFields (readField arch .si_code data) (readField arch .si_signo data),
            ¬ f.covers native i) → r[i]? = some 0 := by
  subst hsize
  rw [convert_dispatch]
  exact ⟨_, convert_cross _ _ hne _ _, fun i h1 h2 h3 => cross_payload_zero _ _ _ _ _ _ h1 h2 h3⟩

/-- Witness for claim C9: `convert_cross_payload_invariant` at a concrete input. -/
theorem convert_cross_payload_invariant_witness :
    ∃ r, convert_to_native_siginfo .x86 .aarch64 allOne 128 zeroFrame = .ok r
      ∧ ∀ i, sifields_offset .x86 ≤ i → i < sizeof_siginfo_t .x86 →
          (∀ f ∈ payloadFields (readField .aarch64 .si_code allOne)
              (readField .aarch64 .si_signo allOne), ¬ f.covers .x86 i) → r[i]? = some 0 :=
  convert_cross_payload_invariant .x86 .aarch64 allOne 128 zeroFrame (by decide) (by decide)

/-- Claim C10.  For all integers `n` and `m` and any values of the `Arch`
request constants, `signal_name`, `errno_name`, `ptrace_event_name`,
`ptrace_req_name`, `sicode_name` and `arch_name` return a non-empty string. -/
theorem resolvers_total_nonempty (n m : Int) (Arch : PtraceReq → Int) :
    signal_name n ≠ "" ∧ errno_name n ≠ "" ∧ ptrace_event_name n ≠ ""
      ∧ ptrace_req_name Arch n ≠ "" ∧ sicode_name n m ≠ "" ∧ arch_name n ≠ "" :=
  ⟨signal_name_ne_empty n, errno_name_ne_empty n, ptrace_event_name_ne_empty n,
    ptrace_req_name_ne_empty Arch n, sicode_name_ne_empty n m, arch_name_ne_empty n⟩

/-! ## Lemmas: decimal rendering and the fallback format -/

theorem toDigitsCore_append (fuel n : Nat) (ds : List Char) :
    Nat.toDigitsCore 10 fuel n ds = Nat.toDigitsCore 10 fuel n [] ++ ds := by
  induction fuel generalizing n ds with
  | zero => simp [Nat.toDigitsCore]
  | succ fuel ih =>
    simp only [Nat.toDigitsCore]
    split
    · simp
    · rw [ih (n / 10) (Nat.digitChar (n % 10) :: ds), ih (n / 10) [Nat.digitChar (n % 10)]]
      simp

theorem digitChar_value : ∀ d, d < 10 → (Nat.digitChar d).toNat - 48 = d := by
  decide

theorem decimalValue_append_singleton (cs : List Char) (c : Char) :
    decimalValue (cs ++ [c]) = 10 * decimalValue cs + (c.toNat - 48) := by
  simp [decimalValue, List.foldl_append]

theorem decimalValue_toDigitsCore (fuel n : Nat) (h : n < fuel) :
    decimalValue (Nat.toDigitsCore 10 fuel n []) = n := by
  induction fuel generalizing n with
  | zero => omega
  | succ fuel ih =>
    simp only [Nat.toDigitsCore]
    split
    · next h0 =>
      have hlt : n < 10 := by omega
      simp only [decimalValue, List.foldl_cons, List.foldl_nil, Nat.mul_zero, Nat.zero_add]
      rw [digitChar_value _ (Nat.mod_lt _ (by decide))]
      exact Nat.mod_eq_of_lt hlt
    · next h0 =>
      rw [toDigitsCore_append, decimalValue_append_singleton, ih (n / 10) (by omega),
        digitChar_value _ (Nat.mod_lt _ (by decide))]
      omega

theorem decimalValue_repr (n : Nat) : decimalValue (Nat.repr n).data = n := by
  simp only [Nat.repr, Nat.toDigits, List.asString]
  exact decimalValue_toDigitsCore _ _ (by omega)

theorem decimalValue_minus (cs : List Char) : decimalValue ('-' :: cs) = decimalValue cs := by
  simp [decimalValue]

theorem fmt_d_ofNat (m : Nat) : fmt_d (Int.ofNat m) = Nat.repr m := rfl

theorem fmt_d_negSucc (m : Nat) : fmt_d (Int.negSucc m) = "-" ++ Nat.repr (m + 1) := rfl

theorem fmt_d_injective (a b : Int) (h : fmt_d a = fmt_d b) : a = b := by
  have hmixed : ∀ m k : Nat, Nat.repr m ≠ "-" ++ Nat.repr (k + 1) := by
    intro m k he
    have hv := congrArg (fun s => decimalValue s.data) he
    simp only [String.data_append] at hv
    rw [List.singleton_append, decimalValue_minus, decimalValue_repr, decimalValue_repr] at hv
    subst hv
    have hl := congrArg String.length he
    rw [String.length_append] at hl
    have h2 : ("-" : String).length = 1 := rfl
    omega
  cases a with
  | ofNat m =>
    cases b with
    | ofNat k =>
      rw [fmt_d_ofNat, fmt_d_ofNat] at h
      have := congrArg (fun s => decimalValue s.data) h
      simp only [decimalValue_repr] at this
      rw [this]
    | negSucc k =>
      rw [fmt_d_ofNat, fmt_d_negSucc] at h
      exact absurd h (hmixed m k)
  | negSucc m =>
    cases b with
    | ofNat k =>
      rw [fmt_d_ofNat, fmt_d_negSucc] at h
      exact absurd h.symm (hmixed k m)
    | negSucc k =>
      rw [fmt_d_negSucc, fmt_d_negSucc] at h
      have := congrArg (fun s => decimalValue s.data) h
      simp only [String.data_append] at this
      rw [List.singleton_append, List.singleton_append, decimalValue_minus,
        decimalValue_minus, decimalValue_repr, decimalValue_repr] at this
      have : m = k := by omega
      rw [this]

theorem fmt_d_length (n : Int) (h : IsInt n) : (fmt_d n).length ≤ 11 := by
  unfold IsInt INT_MIN INT_MAX at h
  cases n with
  | ofNat m =>
    rw [fmt_d_ofNat]
    have hm : m < 10 ^ 10 := by
      have : (m : Int) ≤ 2147483647 := h.2
      norm_num
      omega
    have := Nat.repr_length m 10 (by decide) hm
    omega
  | negSucc m =>
    rw [fmt_d_negSucc, String.length_append]
    have hm : m + 1 < 10 ^ 10 := by
      have h1 : -2147483648 ≤ Int.negSucc m := h.1
      rw [Int.negSucc_eq] at h1
      norm_num
      omega
    have := Nat.repr_length (m + 1) 10 (by decide) hm
    have h2 : ("-" : String).length = 1 := rfl
    omega

theorem snprintf_fits (size : Nat) (s : String) (h : s.length ≤ size - 1) : snprintf size s = s := by
  cases s with
  | mk d =>
    unfold snprintf
    simp only [String.length] at h
    simp only [List.take_of_length_le h]

theorem switchCase_eq_none_iff (cases : List (Int × String)) (v : Int) :
    switchCase cases v = none ↔ ∀ c ∈ cases, c.1 ≠ v := by
  unfold switchCase
  rw [Option.map_eq_none', List.find?_eq_none]
  simp

theorem fallback_fits (pre : String) (n : Int) (hn : IsInt n) (hpre : pre.length ≤ 80) :
    snprintf sizeof_buf (pre ++ fmt_d n ++ ")") = pre ++ fmt_d n ++ ")" := by
  apply snprintf_fits
  have h1 := fmt_d_length n hn
  have h2 : (")" : String).length = 1 := rfl
  simp only [String.length_append, sizeof_buf]
  omega

theorem signal_name_fallback (n : Int) (hn : IsInt n) (h : n < 1 ∨ 64 < n) :
    signal_name n = "signal(" ++ fmt_d n ++ ")" := by
  have hnone : switchCase signalCases n = none := by
    rw [switchCase_eq_none_iff]
    intro c hc
    have : ∀ c ∈ signalCases, 1 ≤ c.1 ∧ c.1 ≤ 31 := by decide
    have := this c hc
    omega
  unfold signal_name
  rw [if_neg (by omega), hnone]
  simp only
  split
  · next h0 => subst h0; decide
  · exact fallback_fits _ n hn (by decide)

theorem ptrace_event_name_fallback (n : Int) (hn : IsInt n)
    (h : ∀ c ∈ ptraceEventCases, c.1 ≠ n) :
    ptrace_event_name n = "PTRACE_EVENT(" ++ fmt_d n ++ ")" := by
  unfold ptrace_event_name
  rw [(switchCase_eq_none_iff _ _).mpr h]
  simp only
  split
  · next h0 => subst h0; decide
  · exact fallback_fits _ n hn (by decide)

theorem sicode_name_fallback (n s : Int) (hn : IsInt n)
    (h1 : ∀ c ∈ genericCodeCases, c.1 ≠ n) (h2 : ∀ c ∈ signalCodeCases s, c.1 ≠ n) :
    sicode_name n s = "sicode(" ++ fmt_d n ++ ")" := by
  unfold sicode_name
  rw [(switchCase_eq_none_iff _ _).mpr h1]
  simp only
  rw [(switchCase_eq_none_iff _ _).mpr h2]
  exact fallback_fits _ n hn (by decide)

theorem errno_name_cstr_eq_none_iff (n : Int) :
    errno_name_cstr n = none ↔ n ≠ 0 ∧ ∀ c ∈ errnoCases, c.1 ≠ n := by
  unfold errno_name_cstr
  split
  · next h0 => simp [h0]
  · next h0 => rw [switchCase_eq_none_iff]; simp [h0]

set_option maxRecDepth 8000 in
theorem errnoCases_head : ∀ c ∈ errnoCases, c.2.data.head? = some 'E' := by
  decide

theorem errno_name_cstr_head (n : Int) (name : String) (h : errno_name_cstr n = some name) :
    name.data.head? ≠ some 'e' := by
  unfold errno_name_cstr at h
  split at h
  · cases h; decide
  · obtain ⟨c, hc, hname⟩ := switchCase_mem _ _ _ h
    rw [← hname, errnoCases_head c hc]
    decide

theorem errno_name_fallback_iff (n : Int) (hn : IsInt n) :
    errno_name n = "errno(" ++ fmt_d n ++ ")" ↔ errno_name_cstr n = none := by
  unfold errno_name
  constructor
  · intro h
    cases hc : errno_name_cstr n with
    | none => rfl
    | some name =>
      rw [hc] at h
      simp only at h
      have := errno_name_cstr_head n name hc
      rw [h] at this
      exact absurd rfl this
  · intro h
    rw [h]
    exact fallback_fits _ n hn (by decide)

/-! ## Lemmas: `ptrace_req_name` -/

theorem PtraceReq.mem_all (r : PtraceReq) : r ∈ PtraceReq.all := by
  cases r <;> decide

theorem ptrace_find_none (Arch : PtraceReq → Int) (key : Int) (h : ∀ r, Arch r ≠ key) :
    PtraceReq.all.find? (fun r => Arch r = key) = none := by
  rw [List.find?_eq_none]
  intro r _
  simpa using h r

/-! ## Lemmas: `signal_name` -/

theorem signal_name_rt (a : Int) (h1 : 32 ≤ a) (h2 : a ≤ 64) :
    signal_name a = "SIGRT" ++ fmt_d a := by
  unfold signal_name
  rw [if_pos ⟨h1, h2⟩]
  apply snprintf_fits
  have := fmt_d_length a (by unfold IsInt INT_MIN INT_MAX; omega)
  have h5 : ("SIGRT" : String).length = 5 := rfl
  simp only [String.length_append, sizeof_buf]
  omega

theorem signal_name_listed (a : Int) (h1 : 1 ≤ a) (h2 : a ≤ 31) :
    switchCase signalCases a = some (signal_name a) := by
  interval_cases a <;> decide

theorem lowSignalNames_nodup : lowSignalNames.Nodup := by
  decide

theorem lowSignalNames_head : ∀ s ∈ lowSignalNames, s.data.head? = some 'S' := by
  decide

theorem signal_name_low (a : Int) (h1 : 1 ≤ a) (h2 : a ≤ 64) :
    ∃ i, ∃ h : i < lowSignalNames.length, a = (i : Int) + 1
      ∧ signal_name a = lowSignalNames.get ⟨i, h⟩ := by
  have hlen : lowSignalNames.length = 64 := by simp [lowSignalNames]
  refine ⟨(a - 1).toNat, by omega, by omega, ?_⟩
  simp only [lowSignalNames, List.get_eq_getElem, List.getElem_map, List.getElem_range]
  congr 1
  push_cast
  omega

theorem signal_name_low_inj (a b : Int) (ha1 : 1 ≤ a) (ha2 : a ≤ 64) (hb1 : 1 ≤ b)
    (hb2 : b ≤ 64) (h : signal_name a = signal_name b) : a = b := by
  obtain ⟨i, hi, hai, hsa⟩ := signal_name_low a ha1 ha2
  obtain ⟨j, hj, hbj, hsb⟩ := signal_name_low b hb1 hb2
  rw [hsa, hsb] at h
  have := (List.Nodup.get_inj_iff lowSignalNames_nodup).mp h
  simp only [Fin.mk.injEq] at this
  omega

theorem signal_name_low_head (a : Int) (h1 : 1 ≤ a) (h2 : a ≤ 64) :
    (signal_name a).data.head? = some 'S' := by
  obtain ⟨i, hi, _, hs⟩ := signal_name_low a h1 h2
  rw [hs]
  exact lowSignalNames_head _ (List.get_mem _ _ _)

theorem signal_name_high_head (a : Int) (ha : IsInt a) (h : a < 1 ∨ 64 < a) :
    (signal_name a).data.head? = some 's' := by
  rw [signal_name_fallback a ha h]
  rfl

theorem signal_name_high_inj (a b : Int) (ha : IsInt a) (hb : IsInt b) (h1 : a < 1 ∨ 64 < a)
    (h2 : b < 1 ∨ 64 < b) (h : signal_name a = signal_name b) : a = b := by
  rw [signal_name_fallback a ha h1, signal_name_fallback b hb h2] at h
  apply fmt_d_injective
  have hd := congrArg String.data h
  simp only [String.data_append] at hd
  have := List.append_cancel_left (List.append_cancel_right hd)
  exact String.ext this

theorem signal_name_injective (a b : Int) (ha : IsInt a) (hb : IsInt b)
    (h : signal_name a = signal_name b) : a = b := by
  by_cases hla : 1 ≤ a ∧ a ≤ 64
  · by_cases hlb : 1 ≤ b ∧ b ≤ 64
    · exact signal_name_low_inj a b hla.1 hla.2 hlb.1 hlb.2 h
    · have h1 := signal_name_low_head a hla.1 hla.2
      have h2 := signal_name_high_head b hb (by omega)
      rw [h, h2] at h1
      exact absurd h1 (by decide)
  · by_cases hlb : 1 ≤ b ∧ b ≤ 64
    · have h1 := signal_name_low_head b hlb.1 hlb.2
      have h2 := signal_name_high_head a ha (by omega)
      rw [← h, h2] at h1
      exact absurd h1 (by decide)
    · exact signal_name_high_inj a b ha hb (by omega) (by omega) h

/-! ## Lemmas: `sicode_name` -/

theorem switchCase_of_mem (cases : List (Int × String)) (v : Int) (name : String)
    (hnodup : (cases.map (fun c => c.1)).Nodup) (h : (v, name) ∈ cases) :
    switchCase cases v = some name := by
  induction cases with
  | nil => simp at h
  | cons c cs ih =>
    rw [List.map_cons, List.nodup_cons] at hnodup
    unfold switchCase
    rw [List.find?_cons]
    by_cases hc : c.1 = v
    · simp only [hc, decide_True, Option.map_some']
      rcases List.mem_cons.mp h with h1 | h1
      · rw [← h1]
      · exfalso
        apply hnodup.1
        rw [hc]
        exact List.mem_map.mpr ⟨(v, name), h1, rfl⟩
    · simp only [hc, decide_False]
      rcases List.mem_cons.mp h with h1 | h1
      · exact absurd (by rw [← h1]) hc
      · exact ih hnodup.2 h1

theorem signalCodeCases_nodup (sig : Int) : ((signalCodeCases sig).map (fun c => c.1)).Nodup := by
  unfold signalCodeCases
  split_ifs <;> decide

theorem signalCodeCases_no_generic (sig : Int) :
    ∀ c ∈ signalCodeCases sig, ∀ g ∈ genericCodeCases, g.1 ≠ c.1 := by
  unfold signalCodeCases
  split_ifs <;> decide

theorem signalCodeCases_ne_nil_iff (sig : Int) :
    signalCodeCases sig ≠ [] ↔ sig ∈ [SIGSEGV, SIGTRAP, SIGILL, SIGFPE, SIGBUS, SIGCHLD, SIGPOLL] := by
  unfold signalCodeCases
  simp only [List.mem_cons, List.mem_singleton, List.not_mem_nil, or_false]
  split_ifs <;> simp_all [segvCodes, trapCodes, illCodes, fpeCodes, busCodes, cldCodes, pollCodes]

theorem sicode_name_generic (code sig : Int) (name : String)
    (h : (code, name) ∈ genericCodeCases) : sicode_name code sig = name := by
  unfold sicode_name
  rw [switchCase_of_mem _ _ _ (by decide) h]

theorem sicode_name_specific (code sig : Int) (name : String)
    (hg : ∀ c ∈ genericCodeCases, c.1 ≠ code) (h : (code, name) ∈ signalCodeCases sig) :
    sicode_name code sig = name := by
  unfold sicode_name
  rw [(switchCase_eq_none_iff _ _).mpr hg]
  simp only
  rw [switchCase_of_mem _ _ _ (signalCodeCases_nodup sig) h]

/-! ## Lemmas: bitwise operators on `int` -/

theorem and_two_pow_ne_zero_iff (n k : Nat) : n &&& 2 ^ k ≠ 0 ↔ n.testBit k = true := by
  constructor
  · intro h
    obtain ⟨i, hi⟩ := Nat.ne_zero_implies_bit_true h
    rw [Nat.testBit_and, Nat.testBit_two_pow] at hi
    simp only [Bool.and_eq_true, decide_eq_true_eq] at hi
    rw [hi.2]
    exact hi.1
  · intro h h0
    have := Nat.testBit_and n (2 ^ k) k
    rw [h0, Nat.testBit_two_pow_self, h] at this
    simp at this

theorem bits_lt (a : Int) : bits a < 2 ^ 32 := by
  have := encode_lt signed_int a
  simpa [bits, IntTy.card, signed_int] using this

theorem decode_eq_zero_iff (u : Nat) (h : u < 2 ^ 32) : signed_int.decode u = 0 ↔ u = 0 := by
  unfold IntTy.decode
  simp only [signed_int, IntTy.card, true_and]
  have h256 : (256 : Nat) ^ 4 = 2 ^ 32 := by norm_num
  rw [h256, Nat.mod_eq_of_lt h]
  split <;> omega

theorem int_and_ne_zero_iff (a b : Int) : int_and a b ≠ 0 ↔ bits a &&& bits b ≠ 0 := by
  unfold int_and
  rw [Ne, decode_eq_zero_iff _ (Nat.lt_of_le_of_lt Nat.and_le_left (bits_lt a))]

theorem int_and_bit (a : Int) (m : Int) (k : Nat) (hm : bits m = 2 ^ k) :
    int_and a m ≠ 0 ↔ (bits a).testBit k = true := by
  rw [int_and_ne_zero_iff, hm, and_two_pow_ne_zero_iff]

/-! ## Lemmas: `xsave_feature_string` -/

theorem xsave_feature_string_fold (f : Nat) :
    xsave_feature_string f =
      (let ret := xsaveFeatureNames.foldl
          (fun ret p => if f &&& p.1 ≠ 0 then ret ++ (p.2 ++ " ") else ret) ""
       if ret.length > 0 then dropLastChar ret else ret) := by
  rfl

theorem foldl_append_selected (f : Nat) (t : List (Nat × String)) (acc : String) :
    t.foldl (fun ret p => if f &&& p.1 ≠ 0 then ret ++ (p.2 ++ " ") else ret) acc
      = acc ++ concatWithSpace ((t.filter (fun p => f &&& p.1 ≠ 0)).map (fun p => p.2)) := by
  induction t generalizing acc with
  | nil => simp [concatWithSpace]
  | cons p t ih =>
    rw [List.foldl_cons, ih, List.filter_cons]
    by_cases hp : f &&& p.1 ≠ 0
    · simp only [hp, ne_eq, not_false_eq_true, decide_True, if_true, List.map_cons,
        concatWithSpace, String.append_assoc]
    · simp only [hp, decide_False, if_false]
      simp

theorem concatWithSpace_eq (ns : List String) (h : ns ≠ []) :
    concatWithSpace ns = joinWithSpace ns ++ " " := by
  induction ns with
  | nil => exact absurd rfl h
  | cons a rest ih =>
    cases rest with
    | nil => simp [concatWithSpace, joinWithSpace]
    | cons b rest =>
      rw [concatWithSpace, ih (by simp), joinWithSpace]
      simp only [String.append_assoc]

theorem dropLastChar_append_space (s : String) : dropLastChar (s ++ " ") = s := by
  cases s with
  | mk d =>
    have hd : (String.mk d ++ " ").data = d ++ [' '] := rfl
    have hl : (String.mk d ++ " ").length = d.length + 1 := by
      rw [String.length, hd, List.length_append]
      rfl
    unfold dropLastChar
    rw [hd, hl, Nat.add_sub_cancel, List.take_left']
    rfl

theorem xsave_feature_string_eq (f : Nat) :
    xsave_feature_string f = joinWithSpace (setFeatureNames f) := by
  rw [xsave_feature_string_fold]
  simp only [foldl_append_selected, String.empty_append]
  unfold setFeatureNames
  generalize (xsaveFeatureNames.filter (fun p => f &&& p.1 ≠ 0)).map (fun p => p.2) = ns
  cases ns with
  | nil => rfl
  | cons a rest =>
    rw [concatWithSpace_eq _ (by simp)]
    rw [if_pos (by simp [String.length_append]; exact Or.inr (by decide)), dropLastChar_append_space]

theorem setFeatureNames_words (f : Nat) : ∀ n ∈ setFeatureNames f, n ≠ "" ∧ ' ' ∉ n.data := by
  intro n hn
  unfold setFeatureNames at hn
  obtain ⟨p, hp, rfl⟩ := List.mem_map.mp hn
  have hall : ∀ p ∈ xsaveFeatureNames, p.2 ≠ "" ∧ ' ' ∉ p.2.data := by decide
  exact hall p (List.mem_of_mem_filter hp)

theorem data_ne_nil (n : String) (h : n ≠ "") : n.data ≠ [] := by
  intro hd
  apply h
  exact String.ext hd

theorem joinWithSpace_cons_data (a : String) (rest : List String) :
    ∃ tail, (joinWithSpace (a :: rest)).data = a.data ++ tail := by
  cases rest with
  | nil => exact ⟨[], by simp [joinWithSpace]⟩
  | cons b rest => exact ⟨(" " ++ joinWithSpace (b :: rest)).data, by
      simp [joinWithSpace, String.data_append]⟩

theorem joinWithSpace_head (ns : List String) (h : ∀ n ∈ ns, n ≠ "" ∧ ' ' ∉ n.data) :
    (joinWithSpace ns).data.head? ≠ some ' ' := by
  cases ns with
  | nil => simp [joinWithSpace]
  | cons a rest =>
    obtain ⟨tail, ht⟩ := joinWithSpace_cons_data a rest
    have ha := h a (List.mem_cons_self _ _)
    rw [ht]
    cases hd : a.data with
    | nil => exact absurd hd (data_ne_nil a ha.1)
    | cons c cs =>
      simp only [List.cons_append, List.head?_cons, ne_eq, Option.some.injEq]
      intro hc
      apply ha.2
      rw [hd, hc]
      exact List.mem_cons_self _ _

theorem joinWithSpace_last (ns : List String) (h : ∀ n ∈ ns, n ≠ "" ∧ ' ' ∉ n.data) :
    (joinWithSpace ns).data.getLast? ≠ some ' ' := by
  induction ns with
  | nil => simp [joinWithSpace]
  | cons a rest ih =>
    cases rest with
    | nil =>
      have ha := h a (List.mem_cons_self _ _)
      simp only [joinWithSpace]
      intro hl
      exact ha.2 (List.mem_of_getLast?_eq_some hl)
    | cons b rest =>
      have ih' := ih (fun n hn => h n (List.mem_cons_of_mem _ hn))
      obtain ⟨tail, ht⟩ := joinWithSpace_cons_data b rest
      have hb := h b (List.mem_cons_of_mem _ (List.mem_cons_self _ _))
      have hne : (joinWithSpace (b :: rest)).data ≠ [] := by
        rw [ht]
        intro h0
        exact data_ne_nil b hb.1 (List.append_eq_nil.mp h0).1
      rw [joinWithSpace, String.data_append, List.getLast?_append_of_ne_nil _ hne]
      exact ih'

theorem joinWithSpace_eq_empty_iff (ns : List String) (h : ∀ n ∈ ns, n ≠ "" ∧ ' ' ∉ n.data) :
    joinWithSpace ns = "" ↔ ns = [] := by
  constructor
  · intro he
    cases ns with
    | nil => rfl
    | cons a rest =>
      exfalso
      obtain ⟨tail, ht⟩ := joinWithSpace_cons_data a rest
      rw [he] at ht
      have ha := h a (List.mem_cons_self _ _)
      have hnil : a.data ++ tail = [] := ht.symm
      exact data_ne_nil a ha.1 (List.append_eq_nil.mp hnil).1
  · intro he
    rw [he]
    rfl

theorem setFeatureNames_eq_nil_iff (f : Nat) :
    setFeatureNames f = [] ↔ ∀ p ∈ xsaveFeatureNames, f &&& p.1 = 0 := by
  unfold setFeatureNames
  rw [List.map_eq_nil_iff, List.filter_eq_nil_iff]
  simp

theorem setFeatureNames_congr (f f' : Nat)
    (h : ∀ p ∈ xsaveFeatureNames, f' &&& p.1 = f &&& p.1) :
    setFeatureNames f' = setFeatureNames f := by
  unfold setFeatureNames
  congr 1
  apply List.filter_congr
  intro p hp
  rw [h p hp]

theorem and_of_mask (f f' m b : Nat) (hb : m &&& b = b) (h : f' &&& m = f &&& m) :
    f' &&& b = f &&& b := by
  rw [← hb, ← Nat.and_assoc, ← Nat.and_assoc, h]

/-! ## Lemmas: `prot_flags_string` -/

theorem int_and_eq_zero_bit (a : Int) (m : Int) (k : Nat) (hm : bits m = 2 ^ k) :
    int_and a m = 0 ↔ (bits a).testBit k = false := by
  have := int_and_bit a m k hm
  rw [Ne, not_iff_comm] at this
  rw [← this]
  simp

theorem mask_testBit (k : Nat) : (0xfffffff8 : Nat).testBit k = decide (3 ≤ k ∧ k < 32) := by
  by_cases h : k < 32
  · interval_cases k <;> decide
  · rw [Nat.testBit_lt_two_pow
      (Nat.lt_of_lt_of_le (by decide : 0xfffffff8 < 2 ^ 32) (Nat.pow_le_pow_right (by decide) (by omega)))]
    simp [h]

theorem extra_bits_iff (prot : Int) :
    int_and prot (int_not (int_or (int_or PROT_READ PROT_WRITE) PROT_EXEC)) ≠ 0
      ↔ ∃ k, 3 ≤ k ∧ (bits prot).testBit k = true := by
  have hm : bits (int_not (int_or (int_or PROT_READ PROT_WRITE) PROT_EXEC)) = 0xfffffff8 := by
    decide
  rw [int_and_ne_zero_iff, hm]
  constructor
  · intro h
    obtain ⟨i, hi⟩ := Nat.ne_zero_implies_bit_true h
    rw [Nat.testBit_and, mask_testBit] at hi
    simp only [Bool.and_eq_true, decide_eq_true_eq] at hi
    exact ⟨i, hi.2.1, hi.1⟩
  · rintro ⟨k, hk, hb⟩ h0
    have hk32 : k < 32 := by
      by_contra hge
      have := Nat.testBit_lt_two_pow
        (Nat.lt_of_lt_of_le (bits_lt prot) (Nat.pow_le_pow_right (by decide) (by omega : 32 ≤ k)))
      rw [this] at hb
      exact absurd hb (by decide)
    have := Nat.testBit_and (bits prot) 0xfffffff8 k
    rw [h0, hb, mask_testBit] at this
    simp [hk, hk32] at this

theorem prot_flags_chars (prot : Int) :
    (if int_and prot PROT_EXEC = 0 then
      (if int_and prot PROT_WRITE = 0 then
        (if int_and prot PROT_READ = 0 then ['r', 'w', 'x'].set 0 '-' else ['r', 'w', 'x']).set 1 '-'
      else if int_and prot PROT_READ = 0 then ['r', 'w', 'x'].set 0 '-'
        else ['r', 'w', 'x']).set 2 '-'
    else
      if int_and prot PROT_WRITE = 0 then
        (if int_and prot PROT_READ = 0 then ['r', 'w', 'x'].set 0 '-' else ['r', 'w', 'x']).set 1 '-'
      else if int_and prot PROT_READ = 0 then ['r', 'w', 'x'].set 0 '-' else ['r', 'w', 'x'])
      = protChars prot := by
  simp only [int_and_eq_zero_bit prot PROT_READ 0 (by decide),
    int_and_eq_zero_bit prot PROT_WRITE 1 (by decide),
    int_and_eq_zero_bit prot PROT_EXEC 2 (by decide), protChars]
  cases (bits prot).testBit 0 <;> cases (bits prot).testBit 1 <;>
    cases (bits prot).testBit 2 <;> rfl

theorem prot_flags_string_extra (HEX : Int → String) (prot : Int)
    (h : ∃ k, 3 ≤ k ∧ (bits prot).testBit k = true) :
    prot_flags_string HEX prot = String.mk (protChars prot) ++ " (" ++ HEX prot ++ ")" := by
  unfold prot_flags_string
  simp only [prot_flags_chars]
  rw [if_pos ((extra_bits_iff prot).mpr h)]

theorem prot_flags_string_plain (HEX : Int → String) (prot : Int)
    (h : ¬ ∃ k, 3 ≤ k ∧ (bits prot).testBit k = true) :
    prot_flags_string HEX prot = String.mk (protChars prot) := by
  unfold prot_flags_string
  simp only [prot_flags_chars]
  rw [if_neg (fun hc => h ((extra_bits_iff prot).mp hc))]

theorem protChars_length (prot : Int) : (protChars prot).length = 3 := rfl

theorem protChars_head (prot : Int) : (protChars prot).head? ≠ some ' ' := by
  unfold protChars
  cases (bits prot).testBit 0 <;> simp

/-! ## The claims on the resolvers and flag functions -/

/-- Claim C11.  For every `int` `n` without a symbolic name the resolver
returns the family prefix, the signed decimal of `n` and a closing parenthesis:
`signal_name n` is `signal(n)` for `n` outside 1 to 64; `errno_name n` is
`errno(n)` exactly when `errno_name_cstr n` is null, which is exactly when `n`
is neither 0 nor a listed constant; `ptrace_event_name n` is `PTRACE_EVENT(n)`
when `n` is no listed event; `sicode_name n s` is `sicode(n)` when `n` is in
neither the generic table nor the table of signal `s`. -/
theorem resolver_fallback_form (n s : Int) (hn : IsInt n) :
    ((n < 1 ∨ 64 < n) → signal_name n = "signal(" ++ fmt_d n ++ ")")
      ∧ (errno_name n = "errno(" ++ fmt_d n ++ ")" ↔ errno_name_cstr n = none)
      ∧ (errno_name_cstr n = none ↔ n ≠ 0 ∧ ∀ c ∈ errnoCases, c.1 ≠ n)
      ∧ ((∀ c ∈ ptraceEventCases, c.1 ≠ n) →
          ptrace_event_name n = "PTRACE_EVENT(" ++ fmt_d n ++ ")")
      ∧ ((∀ c ∈ genericCodeCases, c.1 ≠ n) → (∀ c ∈ signalCodeCases s, c.1 ≠ n) →
          sicode_name n s = "sicode(" ++ fmt_d n ++ ")") :=
  ⟨signal_name_fallback n hn, errno_name_fallback_iff n hn, errno_name_cstr_eq_none_iff n,
    ptrace_event_name_fallback n hn, sicode_name_fallback n s hn⟩

/-- Witness for claim C11: `resolver_fallback_form` at a concrete input. -/
theorem resolver_fallback_form_witness :
    ((-7 < 1 ∨ 64 < (-7 : Int)) → signal_name (-7) = "signal(" ++ fmt_d (-7) ++ ")")
      ∧ (errno_name (-7) = "errno(" ++ fmt_d (-7) ++ ")" ↔ errno_name_cstr (-7) = none)
      ∧ (errno_name_cstr (-7) = none ↔ (-7 : Int) ≠ 0 ∧ ∀ c ∈ errnoCases, c.1 ≠ -7)
      ∧ ((∀ c ∈ ptraceEventCases, c.1 ≠ -7) →
          ptrace_event_name (-7) = "PTRACE_EVENT(" ++ fmt_d (-7) ++ ")")
      ∧ ((∀ c ∈ genericCodeCases, c.1 ≠ -7) → (∀ c ∈ signalCodeCases 11, c.1 ≠ -7) →
          sicode_name (-7) 11 = "sicode(" ++ fmt_d (-7) ++ ")") :=
  resolver_fallback_form (-7) 11 (by decide)

/-- Claim C12.  The zero labels: `signal_name 0` is `signal(0)`,
`ptrace_event_name 0` is `PTRACE_EVENT(0)` and `errno_name 0` is `SUCCESS`; the
default branch formats 0 to the same two strings, so `signal_name` and
`ptrace_event_name` equal, at every argument, the function without the
`case 0` label. -/
theorem zero_labels :
    signal_name 0 = "signal(0)" ∧ ptrace_event_name 0 = "PTRACE_EVENT(0)"
      ∧ errno_name 0 = "SUCCESS"
      ∧ snprintf sizeof_buf ("signal(" ++ fmt_d 0 ++ ")") = "signal(0)"
      ∧ snprintf sizeof_buf ("PTRACE_EVENT(" ++ fmt_d 0 ++ ")") = "PTRACE_EVENT(0)"
      ∧ (∀ sig : Int, signal_name sig =
          if 32 ≤ sig ∧ sig ≤ 64 then snprintf (sizeof_buf - 1) ("SIGRT" ++ fmt_d sig)
          else match switchCase signalCases sig with
            | some name => name
            | none => snprintf sizeof_buf ("signal(" ++ fmt_d sig ++ ")"))
      ∧ (∀ event : Int, ptrace_event_name event =
          match switchCase ptraceEventCases event with
            | some name => name
            | none => snprintf sizeof_buf ("PTRACE_EVENT(" ++ fmt_d event ++ ")")) := by
  refine ⟨by decide, by decide, by decide, by decide, by decide, ?_, ?_⟩
  · intro sig
    unfold signal_name
    split
    · rfl
    · generalize switchCase signalCases sig = o
      cases o with
      | some name => rfl
      | none =>
        simp only
        split
        · next h0 => subst h0; decide
        · rfl
  · intro event
    unfold ptrace_event_name
    generalize switchCase ptraceEventCases event = o
    cases o with
    | some name => rfl
    | none =>
      simp only
      split
      · next h0 => subst h0; decide
      · rfl

/-- Claim C13.  For any values of the `Arch` request constants none of which
is `INT32_MAX`, and every `int` request that is negative or equals no listed
constant, `ptrace_req_name` returns `PTRACE_REQUEST(`, the signed decimal of
the request itself, and `)`; a negative request is looked up as `INT32_MAX`
and matches no label. -/
theorem ptrace_req_name_fallback (Arch : PtraceReq → Int) (request : Int) (hreq : IsInt request)
    (hmax : ∀ r, Arch r ≠ INT32_MAX) (h : request < 0 ∨ ∀ r, Arch r ≠ request) :
    ptrace_req_name Arch request = "PTRACE_REQUEST(" ++ fmt_d request ++ ")"
      ∧ (request < 0 → (if request ≥ 0 then request else INT32_MAX) = INT32_MAX
          ∧ PtraceReq.all.find? (fun r => Arch r = INT32_MAX) = none) := by
  constructor
  · have hnone : PtraceReq.all.find?
        (fun r => Arch r = (if request ≥ 0 then request else INT32_MAX)) = none := by
      apply ptrace_find_none
      intro r
      split
      · next hge =>
        rcases h with h | h
        · omega
        · exact h r
      · exact hmax r
    unfold ptrace_req_name
    rw [hnone]
    exact fallback_fits _ request hreq (by decide)
  · intro hneg
    exact ⟨if_neg (by omega), ptrace_find_none Arch _ hmax⟩

/-- Witness for claim C13: `ptrace_req_name_fallback` at a concrete input. -/
theorem ptrace_req_name_fallback_witness :
    ptrace_req_name X86Arch (-3) = "PTRACE_REQUEST(" ++ fmt_d (-3) ++ ")"
      ∧ ((-3 : Int) < 0 → (if (-3 : Int) ≥ 0 then (-3 : Int) else INT32_MAX) = INT32_MAX
          ∧ PtraceReq.all.find? (fun r => X86Arch r = INT32_MAX) = none) :=
  ptrace_req_name_fallback X86Arch (-3) (by decide) (fun r => by cases r <;> decide)
    (Or.inl (by decide))

/-- Claim C14.  For `int` arguments `signal_name` has three ranges: from 1 to 31
it is the listed name of the signal (the labels are the numbers 1 to 31, once
each, with pairwise different names), from 32 to 64 it is `SIGRT` and the
decimal, elsewhere it is `signal(` the decimal `)`; and it is injective. -/
theorem signal_name_partition_injective (a b : Int) (ha : IsInt a) (hb : IsInt b) :
    (1 ≤ a → a ≤ 31 → switchCase signalCases a = some (signal_name a))
      ∧ (32 ≤ a → a ≤ 64 → signal_name a = "SIGRT" ++ fmt_d a)
      ∧ ((a < 1 ∨ 64 < a) → signal_name a = "signal(" ++ fmt_d a ++ ")")
      ∧ signalCases.map (fun c => c.1) = (List.range 31).map (fun i => (i : Int) + 1)
      ∧ (signalCases.map (fun c => c.2)).Nodup
      ∧ (signal_name a = signal_name b → a = b) :=
  ⟨signal_name_listed a, signal_name_rt a, signal_name_fallback a ha, by decide, by decide,
    signal_name_injective a b ha hb⟩

/-- Witness for claim C14: `signal_name_partition_injective` at a concrete input. -/
theorem signal_name_partition_injective_witness :
    (1 ≤ (11 : Int) → (11 : Int) ≤ 31 → switchCase signalCases 11 = some (signal_name 11))
      ∧ (32 ≤ (11 : Int) → (11 : Int) ≤ 64 → signal_name 11 = "SIGRT" ++ fmt_d 11)
      ∧ (((11 : Int) < 1 ∨ 64 < (11 : Int)) → signal_name 11 = "signal(" ++ fmt_d 11 ++ ")")
      ∧ signalCases.map (fun c => c.1) = (List.range 31).map (fun i => (i : Int) + 1)
      ∧ (signalCases.map (fun c => c.2)).Nodup
      ∧ (signal_name 11 = signal_name 40 → (11 : Int) = 40) :=
  signal_name_partition_injective 11 40 (by decide) (by decide)

/-- Claim C15.  The function `sicode_name` resolves the nine generic codes
first, to the same name under every signal; any other code gets the name
listed for it under the signal (only the seven signals with an inner switch
list any), and `sicode(` the decimal `)` when none is listed; no generic code
value is a per-signal code value; code 1 is `SEGV_MAPERR` under `SIGSEGV` and
`TRAP_BRKPT` under `SIGTRAP`. -/
theorem sicode_name_resolution (code sig : Int) (hcode : IsInt code) :
    (∀ name, (code, name) ∈ genericCodeCases → ∀ sig', sicode_name code sig' = name)
      ∧ ((∀ c ∈ genericCodeCases, c.1 ≠ code) →
          ∀ name, (code, name) ∈ signalCodeCases sig → sicode_name code sig = name)
      ∧ ((∀ c ∈ genericCodeCases, c.1 ≠ code) → (∀ c ∈ signalCodeCases sig, c.1 ≠ code) →
          sicode_name code sig = "sicode(" ++ fmt_d code ++ ")")
      ∧ (∀ c ∈ signalCodeCases sig, ∀ g ∈ genericCodeCases, g.1 ≠ c.1)
      ∧ (signalCodeCases sig ≠ []
          ↔ sig ∈ [SIGSEGV, SIGTRAP, SIGILL, SIGFPE, SIGBUS, SIGCHLD, SIGPOLL])
      ∧ genericCodeCases.map (fun c => c.1)
          = [SI_USER, SI_KERNEL, SI_QUEUE, SI_TIMER, SI_MESGQ, SI_ASYNCIO, SI_SIGIO, SI_TKILL,
              SI_ASYNCNL]
      ∧ sicode_name 1 SIGSEGV = "SEGV_MAPERR" ∧ sicode_name 1 SIGTRAP = "TRAP_BRKPT" :=
  ⟨fun name h sig' => sicode_name_generic code sig' name h,
    fun hg name h => sicode_name_specific code sig name hg h,
    sicode_name_fallback code sig hcode, signalCodeCases_no_generic sig,
    signalCodeCases_ne_nil_iff sig, by decide, by decide, by decide⟩

/-- Witness for claim C15: `sicode_name_resolution` at a concrete input. -/
theorem sicode_name_resolution_witness :
    (∀ name, ((1 : Int), name) ∈ genericCodeCases → ∀ sig', sicode_name 1 sig' = name)
      ∧ ((∀ c ∈ genericCodeCases, c.1 ≠ 1) →
          ∀ name, ((1 : Int), name) ∈ signalCodeCases 11 → sicode_name 1 11 = name)
      ∧ ((∀ c ∈ genericCodeCases, c.1 ≠ 1) → (∀ c ∈ signalCodeCases 11, c.1 ≠ 1) →
          sicode_name 1 11 = "sicode(" ++ fmt_d 1 ++ ")")
      ∧ (∀ c ∈ signalCodeCases 11, ∀ g ∈ genericCodeCases, g.1 ≠ c.1)
      ∧ (signalCodeCases 11 ≠ []
          ↔ (11 : Int) ∈ [SIGSEGV, SIGTRAP, SIGILL, SIGFPE, SIGBUS, SIGCHLD, SIGPOLL])
      ∧ genericCodeCases.map (fun c => c.1)
          = [SI_USER, SI_KERNEL, SI_QUEUE, SI_TIMER, SI_MESGQ, SI_ASYNCIO, SI_SIGIO, SI_TKILL,
              SI_ASYNCNL]
      ∧ sicode_name 1 SIGSEGV = "SEGV_MAPERR" ∧ sicode_name 1 SIGTRAP = "TRAP_BRKPT" :=
  sicode_name_resolution 1 11 (by decide)

/-- Claim C16.  For every `flags`, the result of `shm_flags_to_mmap_prot` has
bit 0 (`PROT_READ`) set, bit 1 (`PROT_WRITE`) set exactly when bit 12
(`SHM_RDONLY`) of `flags` is clear, bit 2 (`PROT_EXEC`) set exactly when bit 15
(`SHM_EXEC`) of `flags` is set, and no other bit set; two arguments that agree
on bits 12 and 15 give the same result. -/
theorem shm_flags_to_mmap_prot_bits (flags flags' : Int) :
    (bits (shm_flags_to_mmap_prot flags)).testBit 0 = true
      ∧ (bits (shm_flags_to_mmap_prot flags)).testBit 1 = !(bits flags).testBit 12
      ∧ (bits (shm_flags_to_mmap_prot flags)).testBit 2 = (bits flags).testBit 15
      ∧ (∀ k, 3 ≤ k → (bits (shm_flags_to_mmap_prot flags)).testBit k = false)
      ∧ ((bits flags').testBit 12 = (bits flags).testBit 12 →
          (bits flags').testBit 15 = (bits flags).testBit 15 →
          shm_flags_to_mmap_prot flags' = shm_flags_to_mmap_prot flags)
      ∧ bits PROT_READ = 2 ^ 0 ∧ bits PROT_WRITE = 2 ^ 1 ∧ bits PROT_EXEC = 2 ^ 2
      ∧ bits SHM_RDONLY = 2 ^ 12 ∧ bits SHM_EXEC = 2 ^ 15 := by
  have hform : ∀ f : Int, shm_flags_to_mmap_prot f
      = int_or (int_or PROT_READ (if (bits f).testBit 12 = true then 0 else PROT_WRITE))
          (if (bits f).testBit 15 = true then PROT_EXEC else 0) := by
    intro f
    unfold shm_flags_to_mmap_prot
    simp only [int_and_bit f SHM_RDONLY 12 (by decide), int_and_bit f SHM_EXEC 15 (by decide)]
  refine ⟨?_, ?_, ?_, ?_, ?_, by decide, by decide, by decide, by decide, by decide⟩
  · rw [hform]
    cases (bits flags).testBit 12 <;> cases (bits flags).testBit 15 <;> decide
  · rw [hform]
    cases (bits flags).testBit 12 <;> cases (bits flags).testBit 15 <;> decide
  · rw [hform]
    cases (bits flags).testBit 12 <;> cases (bits flags).testBit 15 <;> decide
  · intro k hk
    apply Nat.testBit_lt_two_pow
    have h8 : bits (shm_flags_to_mmap_prot flags) < 2 ^ 3 := by
      rw [hform]
      cases (bits flags).testBit 12 <;> cases (bits flags).testBit 15 <;> decide
    exact Nat.lt_of_lt_of_le h8 (Nat.pow_le_pow_right (by decide) hk)
  · intro h12 h15
    rw [hform, hform, h12, h15]

/-- Claim C17.  For every `xsave_features`, `xsave_feature_string` is the names
of the set known feature bits, in the ascending order of the table, joined by
single spaces; it neither starts nor ends with a space; it is empty exactly
when none of the eleven bits is set; and two arguments that agree on the
eleven bits (mask `0x23ff`) give the same string. -/
theorem xsave_feature_string_spec (f f' : Nat) :
    xsave_feature_string f = joinWithSpace (setFeatureNames f)
      ∧ (xsave_feature_string f).data.head? ≠ some ' '
      ∧ (xsave_feature_string f).data.getLast? ≠ some ' '
      ∧ (xsave_feature_string f = "" ↔ ∀ p ∈ xsaveFeatureNames, f &&& p.1 = 0)
      ∧ (f' &&& 0x23ff = f &&& 0x23ff → xsave_feature_string f' = xsave_feature_string f)
      ∧ xsaveFeatureNames.foldl (fun m p => m ||| p.1) 0 = 0x23ff
      ∧ (xsaveFeatureNames.map (fun p => p.1)).Pairwise (fun a b => a < b)
      ∧ (∀ p ∈ xsaveFeatureNames, p.2 ≠ "" ∧ ' ' ∉ p.2.data) := by
  have hw := setFeatureNames_words f
  refine ⟨xsave_feature_string_eq f, ?_, ?_, ?_, ?_, by decide, by decide, by decide⟩
  · rw [xsave_feature_string_eq]
    exact joinWithSpace_head _ hw
  · rw [xsave_feature_string_eq]
    exact joinWithSpace_last _ hw
  · rw [xsave_feature_string_eq, joinWithSpace_eq_empty_iff _ hw, setFeatureNames_eq_nil_iff]
  · intro h
    rw [xsave_feature_string_eq, xsave_feature_string_eq, setFeatureNames_congr]
    intro p hp
    have hmask : ∀ p ∈ xsaveFeatureNames, 0x23ff &&& p.1 = p.1 := by decide
    exact and_of_mask f f' _ _ (hmask p hp) h

/-- Claim C18.  For every `prot` and any rendering `HEX`, the string returned by
`prot_flags_string` begins with the three flag characters for the bits 0, 1
and 2; when a bit from 3 up is set it is those characters followed by ` (`,
the text of `HEX(prot)` and `)`, otherwise it is the three characters alone;
it ends in that suffix exactly when such a bit is set, and has length three
exactly when none is. -/
theorem prot_flags_string_spec (HEX : Int → String) (prot : Int) :
    (prot_flags_string HEX prot).data.take 3 = protChars prot
      ∧ ((∃ k, 3 ≤ k ∧ (bits prot).testBit k = true) →
          prot_flags_string HEX prot = String.mk (protChars prot) ++ " (" ++ HEX prot ++ ")")
      ∧ ((¬ ∃ k, 3 ≤ k ∧ (bits prot).testBit k = true) →
          prot_flags_string HEX prot = String.mk (protChars prot))
      ∧ ((∃ pre, prot_flags_string HEX prot = pre ++ " (" ++ HEX prot ++ ")")
          ↔ ∃ k, 3 ≤ k ∧ (bits prot).testBit k = true)
      ∧ ((prot_flags_string HEX prot).length = 3
          ↔ ¬ ∃ k, 3 ≤ k ∧ (bits prot).testBit k = true) := by
  have hplen : ∀ pre : String, (pre ++ " (" ++ HEX prot ++ ")").length
      = pre.length + (HEX prot).length + 3 := by
    intro pre
    simp only [String.length_append]
    have h1 : (" (" : String).length = 2 := rfl
    have h2 : (")" : String).length = 1 := rfl
    omega
  refine ⟨?_, prot_flags_string_extra HEX prot, prot_flags_string_plain HEX prot, ?_, ?_⟩
  · by_cases h : ∃ k, 3 ≤ k ∧ (bits prot).testBit k = true
    · rw [prot_flags_string_extra HEX prot h]
      simp only [String.data_append, List.append_assoc]
      rw [List.take_left' (protChars_length prot)]
    · rw [prot_flags_string_plain HEX prot h]
      exact List.take_of_length_le (by rw [protChars_length])
  · constructor
    · rintro ⟨pre, hpre⟩
      by_contra h
      rw [prot_flags_string_plain HEX prot h] at hpre
      have hl := congrArg String.length hpre
      rw [hplen pre] at hl
      have h3 : (String.mk (protChars prot)).length = 3 := rfl
      have hp0 : pre.length = 0 := by omega
      have hpe : pre = "" := by
        cases pre with
        | mk d =>
          simp only [String.length, List.length_eq_zero] at hp0
          rw [hp0]
      have hd := congrArg (fun s => s.data.head?) hpre
      rw [hpe] at hd
      simp only [String.data_append] at hd
      exact protChars_head prot hd
    · intro h
      exact ⟨_, prot_flags_string_extra HEX prot h⟩
  · constructor
    · intro hl h
      rw [prot_flags_string_extra HEX prot h, hplen] at hl
      have h3 : (String.mk (protChars prot)).length = 3 := rfl
      omega
    · intro h
      rw [prot_flags_string_plain HEX prot h]
      rfl

end rr
